import Mathlib

/-!
Verification of the zalna-api backend (hall / pricing / media / host-application
services) against its natural-language specification.

The TypeScript services are shallowly embedded:

* JavaScript strings are lists of Unicode code points (`JStr := List Nat`);
  `ofStr` injects Lean string literals for concrete test data.
* The relational database is a record of lists of rows (`Db`); `uuid` primary
  keys are modelled as `Nat` drawn from a fresh-id counter (`Db.nextId`), and
  `timestamp` columns as `Nat` ticks of the clock `Db.now`.  A value stored in
  a `uuid` column is always a valid (hence non-empty, hence JS-truthy) uuid
  string, so presence of an id is modelled as `Option Nat`.
* `numeric` money columns are modelled as `Int` (the services convert them
  `string → number` only at the DTO boundary, losslessly for our purposes).
* Each service method is a function `Db → Except ApiError α × Db`: a thrown
  structured error leaves the returned state exactly as the code left the
  database at the throw point.
-/

namespace Zalna

/-- A JavaScript string: the list of its Unicode code points. -/
abbrev JStr := List Nat

/-- Inject a Lean string literal as a `JStr` (code points). -/
def ofStr (s : String) : JStr := s.data.map (fun c => c.toNat)

/-- Code point of the hyphen-minus used by `slugify`. -/
def DASH : Nat := 45

/-- The class `[a-z0-9]` of `slugify`'s regexes. -/
def isLowerAlnum (c : Nat) : Bool :=
  (97 ≤ c && c ≤ 122) || (48 ≤ c && c ≤ 57)

/-- JavaScript `String.prototype.toLowerCase`, per code point, modelled for
ASCII and the Latin-1 uppercase letters (`À`–`Þ` except `×`). -/
def jsLowerChar (c : Nat) : Nat :=
  if 65 ≤ c && c ≤ 90 then c + 32
  else if 192 ≤ c && c ≤ 222 && c ≠ 215 then c + 32
  else c

/-- Canonical decomposition (`normalize("NFD")`) of one code point, modelled
for the Latin-1 lowercase letters with diacritics (the code lowercases first,
so only lowercase letters reach this step changed); other points are left
undecomposed. -/
def nfdChar (c : Nat) : List Nat :=
  if 224 ≤ c && c ≤ 229 then [97, if c = 224 then 768 else if c = 225 then 769
    else if c = 226 then 770 else if c = 227 then 771
    else if c = 228 then 776 else 778]
  else if c = 231 then [99, 807]
  else if 232 ≤ c && c ≤ 235 then [101, if c = 232 then 768 else if c = 233 then 769
    else if c = 234 then 770 else 776]
  else if 236 ≤ c && c ≤ 239 then [105, if c = 236 then 768 else if c = 237 then 769
    else if c = 238 then 770 else 776]
  else if c = 241 then [110, 771]
  else if 242 ≤ c && c ≤ 246 && c ≠ 247 then [111, if c = 242 then 768
    else if c = 243 then 769 else if c = 244 then 770
    else if c = 245 then 771 else 776]
  else if 249 ≤ c && c ≤ 252 then [117, if c = 249 then 768 else if c = 250 then 769
    else if c = 251 then 770 else 776]
  else if c = 253 then [121, 769]
  else if c = 255 then [121, 776]
  else [c]

/-- The combining-diacritics block `̀`–`ͯ` removed by `slugify`. -/
def isCombining (c : Nat) : Bool := 768 ≤ c && c ≤ 879

/-- One pass of the regex replacement `/[^a-z0-9]+/g → "-"`: each maximal run
of characters outside `[a-z0-9]` becomes a single dash.  The flag records
whether we are inside such a run. -/
def collapseAux : Bool → List Nat → List Nat
  | _, [] => []
  | inRun, c :: rest =>
    if isLowerAlnum c then c :: collapseAux false rest
    else if inRun then collapseAux true rest
    else DASH :: collapseAux true rest

/-- The regex replacement `/[^a-z0-9]+/g → "-"`. -/
def collapseNonAlnum (s : JStr) : JStr := collapseAux false s

/-- The regex replacement `/^-+|-+$/g → ""`: strip leading and trailing
dashes. -/
def trimDashes (s : JStr) : JStr :=
  ((s.dropWhile (fun c => c = DASH)).reverse.dropWhile (fun c => c = DASH)).reverse

/-- `HallService.slugify`: lowercase, NFD-normalize, strip combining marks,
collapse non-alphanumeric runs to dashes, trim dashes. -/
def slugify (s : JStr) : JStr :=
  trimDashes (collapseNonAlnum
    (((s.map jsLowerChar).flatMap nfdChar).filter (fun c => !isCombining c)))

/-- JavaScript whitespace for `String.prototype.trim` (the code points that
occur in this code base's inputs). -/
def isWsChar (c : Nat) : Bool :=
  c = 9 || c = 10 || c = 11 || c = 12 || c = 13 || c = 32 || c = 160

/-- JavaScript `String.prototype.trim`. -/
def jsTrim (s : JStr) : JStr :=
  ((s.dropWhile isWsChar).reverse.dropWhile isWsChar).reverse

/-- JavaScript `String.prototype.toLowerCase` over a whole string. -/
def jsLowerStr (s : JStr) : JStr := s.map jsLowerChar

/-- Base-`b` digits of `n`, least significant first, with explicit fuel so the
kernel can evaluate it (`fuel ≥ n` suffices). -/
def digitsAux (b : Nat) : Nat → Nat → List Nat
  | 0, _ => []
  | _ + 1, 0 => []
  | fuel + 1, n => (n % b) :: digitsAux b fuel (n / b)

/-- Decimal rendering of a number, as in the template literal
`` `${counter}` `` (most significant digit first). -/
def natDecChars (n : Nat) : List Nat :=
  if n = 0 then [48] else (digitsAux 10 n n).reverse.map (fun d => 48 + d)

/-- Value of a least-significant-first decimal digit list; the left inverse
of `digitsAux 10` used to show decimal renderings are injective. -/
def decVal : List Nat → Nat
  | [] => 0
  | d :: ds => d + 10 * decVal ds

/-- Base-36 rendering, as in `Date.now().toString(36)` (lowercase digits). -/
def natBase36Chars (n : Nat) : List Nat :=
  if n = 0 then [48]
  else (digitsAux 36 n n).reverse.map (fun d => if d < 10 then 48 + d else 87 + d)

/-! ## Data model

One structure per TypeORM entity, one field per column (relations are stored
as foreign-key ids, exactly as the underlying tables do). -/

/-- `HallStatus` (hall-status.enum.ts). -/
inductive HallStatus
  | DRAFT
  | ACTIVE
  | ARCHIVED
deriving DecidableEq

/-- `halls` table (hall.entity.ts). -/
structure Hall where
  id : Nat
  gerantId : Option Nat
  name : JStr
  slug : JStr
  address : Option JStr
  city : Option JStr
  capacity : Option Int
  description : Option JStr
  cancellationPolicy : Option JStr
  isPremium : Bool
  status : HallStatus
  createdAt : Nat
  updatedAt : Nat
deriving DecidableEq

/-- `HallUserRoleType` (HallUserRole.ts). -/
inductive HallUserRoleType
  | OWNER
  | MANAGER
  | RECEPTIONIST
  | ACCOUNTANT
deriving DecidableEq

/-- `HallUserRole` table (HallUserRole.ts). -/
structure HallUserRole where
  id : Nat
  hallId : Nat
  userId : Nat
  role : HallUserRoleType
  created_at : Nat
deriving DecidableEq

/-- `hall_products` table (hall-product.entity.ts). -/
structure HallProduct where
  id : Nat
  hallId : Nat
  name : JStr
  category : Option JStr
  description : Option JStr
  isPrimary : Bool
  isActive : Bool
  createdAt : Nat
  updatedAt : Nat
deriving DecidableEq

/-- `hall_product_rates` table (hall-product-rate.entity.ts); the `numeric`
columns `price` and `extra_unit_price` are modelled as integers, `date`
columns as day numbers. -/
structure HallProductRate where
  id : Nat
  hallProductId : Nat
  label : JStr
  currency : JStr
  price : Int
  billingUnit : JStr
  minHours : Option Int
  maxHours : Option Int
  extraUnitPrice : Option Int
  dayOfWeekMask : Option JStr
  seasonStart : Option Nat
  seasonEnd : Option Nat
  isDefault : Bool
  createdAt : Nat
  updatedAt : Nat
deriving DecidableEq

/-- `hall_addons` table (hall-addon.entity.ts). -/
structure HallAddon where
  id : Nat
  hallId : Nat
  name : JStr
  description : Option JStr
  pricingModel : JStr
  currency : JStr
  unitPrice : Int
  packSize : Option Int
  redevanceAmount : Option Int
  isActive : Bool
  createdAt : Nat
  updatedAt : Nat
deriving DecidableEq

/-- `hall_blocked_dates` table (hall-blocked-date.entity.ts); `date` columns
are modelled as day numbers, `endDate = none` meaning open-ended. -/
structure HallBlockedDate where
  id : Nat
  hallId : Nat
  startDate : Nat
  endDate : Option Nat
  reason : Option JStr
  createdByUserId : Option Nat
  createdAt : Nat
deriving DecidableEq

/-- `MediaType` (media-type.enum.ts). -/
inductive MediaType
  | IMAGE
  | VIDEO
  | DOCUMENT
deriving DecidableEq

/-- `media` table (media.entity.ts). -/
structure Media where
  id : Nat
  hallId : Nat
  storageProvider : JStr
  fileUrl : JStr
  originalFilename : Option JStr
  mimeType : Option JStr
  sizeBytes : Option JStr
  width : Option Int
  height : Option Int
  mediaType : MediaType
  sortOrder : Option Int
  createdAt : Nat
  updatedAt : Nat
deriving DecidableEq

/-- `media_tags` table (media-tag.entity.ts). -/
structure MediaTag where
  id : Nat
  mediaId : Nat
  tagTypeId : Nat
  isPrimary : Bool
  createdAt : Nat
deriving DecidableEq

/-- `media_tag_types` table (media-tag-type.entity.ts). -/
structure MediaTagType where
  id : Nat
  name : JStr
  description : Option JStr
  createdAt : Nat
deriving DecidableEq

/-- `HostApplicationStatus` (host-application-status.enum.ts). -/
inductive HostApplicationStatus
  | NEW
  | UNDER_REVIEW
  | APPROVED
  | REJECTED
deriving DecidableEq

/-- `host_applications` table (host-application.entity.ts). -/
structure HostApplication where
  id : Nat
  applicantUserId : Option Nat
  hallName : JStr
  address : Option JStr
  city : Option JStr
  capacity : Option Int
  description : Option JStr
  additionalDetails : Option JStr
  contactName : JStr
  contactEmail : JStr
  contactPhone : Option JStr
  contactWhatsapp : Option JStr
  status : HostApplicationStatus
  adminNotes : Option JStr
  reviewedByUserId : Option Nat
  reviewedAt : Option Nat
  createdAt : Nat
  updatedAt : Nat
deriving DecidableEq

/-- The relational database: one list of rows per table, a fresh-id counter
for generated primary keys, and a clock for timestamp columns. -/
structure Db where
  halls : List Hall
  hallUserRoles : List HallUserRole
  hallProducts : List HallProduct
  hallProductRates : List HallProductRate
  hallAddons : List HallAddon
  hallBlockedDates : List HallBlockedDate
  media : List Media
  mediaTags : List MediaTag
  mediaTagTypes : List MediaTagType
  hostApplications : List HostApplication
  nextId : Nat
  now : Nat
deriving DecidableEq

/-- Structured errors of core/errors/AppError.ts that the services throw. -/
inductive ApiError
  | notFound (msg : JStr)
  | validation (msg : JStr)
  | conflict (msg : JStr)
deriving DecidableEq

/-- Decidable equality of service results, for concrete test evaluation. -/
instance {ε α : Type} [DecidableEq ε] [DecidableEq α] : DecidableEq (Except ε α) :=
  fun a b => match a, b with
  | Except.ok x, Except.ok y =>
    if h : x = y then isTrue (by rw [h]) else isFalse (by simp [h])
  | Except.error x, Except.error y =>
    if h : x = y then isTrue (by rw [h]) else isFalse (by simp [h])
  | Except.ok _, Except.error _ => isFalse (by simp)
  | Except.error _, Except.ok _ => isFalse (by simp)

/-! ## Hall service (hall.service.ts) -/

/-- `HallDTO` (hall.interface.ts). -/
structure HallDTO where
  id : Nat
  gerantId : Option Nat
  name : JStr
  slug : JStr
  address : Option JStr
  city : Option JStr
  capacity : Option Int
  description : Option JStr
  cancellationPolicy : Option JStr
  isPremium : Bool
  status : HallStatus
  createdAt : Nat
  updatedAt : Nat
deriving DecidableEq

/-- `HallService.toDTO`. -/
def Hall.toDTO (h : Hall) : HallDTO :=
  { id := h.id, gerantId := h.gerantId, name := h.name, slug := h.slug
    address := h.address, city := h.city, capacity := h.capacity
    description := h.description, cancellationPolicy := h.cancellationPolicy
    isPremium := h.isPremium, status := h.status
    createdAt := h.createdAt, updatedAt := h.updatedAt }

/-- `CreateHallPayload` (hall.interface.ts): `none` models an absent
(`undefined`) optional field. -/
structure CreateHallPayload where
  name : JStr
  slug : Option JStr
  address : Option JStr
  city : Option JStr
  capacity : Option Int
  description : Option JStr
  cancellationPolicy : Option JStr
  isPremium : Option Bool
  status : Option HallStatus
  gerantId : Option Nat
deriving DecidableEq

/-- `UpdateHallPayload` (hall.interface.ts): the outer `Option` models
presence (`undefined` when absent); `gerantId` is `string | null`, so its
inner `Option` models the null owner. -/
structure UpdateHallPayload where
  name : Option JStr
  slug : Option JStr
  address : Option JStr
  city : Option JStr
  capacity : Option Int
  description : Option JStr
  cancellationPolicy : Option JStr
  isPremium : Option Bool
  status : Option HallStatus
  gerantId : Option (Option Nat)
deriving DecidableEq

/-- `HallService.generateFallbackBaseSlug`: `` `hall-${Date.now().toString(36)}` ``. -/
def generateFallbackBaseSlug (now : Nat) : JStr :=
  ofStr "hall-" ++ natBase36Chars now

/-- The query of `HallService.generateUniqueSlug`'s loop body: is `s` the slug
of some hall (a hall with id `excludeId` excluded)? -/
def slugTaken (halls : List Hall) (excludeId : Option Nat) (s : JStr) : Bool :=
  halls.any (fun h => h.slug = s ∧ (∀ e ∈ excludeId, h.id ≠ e))

/-- The candidate tried by `HallService.generateUniqueSlug` at a given value
of `counter`: the base slug first, then `` `${baseSlug}-${counter}` ``. -/
def slugCandidate (baseSlug : JStr) (counter : Nat) : JStr :=
  if counter = 1 then baseSlug else baseSlug ++ DASH :: natDecChars counter

/-- The `while (true)` loop of `HallService.generateUniqueSlug`, with explicit
fuel.  The loop terminates because the candidates are pairwise distinct and
the table of halls is finite; `generateUniqueSlugAux_isSome` below shows fuel
`halls.length + 1` always suffices. -/
def generateUniqueSlugAux (halls : List Hall) (excludeId : Option Nat)
    (baseSlug : JStr) : Nat → Nat → Option JStr
  | 0, _ => none
  | fuel + 1, counter =>
    let candidate := slugCandidate baseSlug counter
    if slugTaken halls excludeId candidate then
      generateUniqueSlugAux halls excludeId baseSlug fuel (counter + 1)
    else
      some candidate

/-- `HallService.generateUniqueSlug`: slugify the base (falling back when the
result is empty), then try `base`, `base-2`, `base-3`, … until no existing
hall (minus `excludeId`) holds the candidate.  Fuel `halls.length + 1` makes
the loop total (`generateUniqueSlugAux_isSome`); the `getD` default is
unreachable. -/
def generateUniqueSlug (halls : List Hall) (now : Nat) (excludeId : Option Nat)
    (base : JStr) : JStr :=
  let slugged := slugify base
  let baseSlug := if slugged = [] then generateFallbackBaseSlug now else slugged
  (generateUniqueSlugAux halls excludeId baseSlug (halls.length + 1) 1).getD baseSlug

/-- `[payload.name, payload.city].filter(Boolean).join(" ")`. -/
def joinNameCity (name : JStr) (city : Option JStr) : JStr :=
  let parts := (if name = [] then [] else [name]) ++
    (match city with | some c => if c = [] then [] else [c] | none => [])
  (parts.intersperse [32]).flatten

/-- `HallService.createHall`. -/
def createHall (db : Db) (payload : CreateHallPayload) :
    Except ApiError HallDTO × Db :=
  let lhs : JStr := match payload.slug with
    | some s => if s = [] then [] else jsTrim s
    | none => []
  let baseForSlugRaw := if lhs ≠ [] then lhs else joinNameCity payload.name payload.city
  let baseForSlug := if baseForSlugRaw ≠ [] ∧ jsTrim baseForSlugRaw ≠ []
    then baseForSlugRaw else generateFallbackBaseSlug db.now
  let finalSlug := generateUniqueSlug db.halls db.now none baseForSlug
  let hall : Hall :=
    { id := db.nextId
      gerantId := payload.gerantId
      name := jsTrim payload.name
      slug := finalSlug
      address := payload.address
      city := payload.city
      capacity := payload.capacity
      description := payload.description
      cancellationPolicy := payload.cancellationPolicy
      isPremium := payload.isPremium.getD false
      status := payload.status.getD HallStatus.DRAFT
      createdAt := db.now
      updatedAt := db.now }
  let db1 : Db := { db with halls := db.halls ++ [hall],
                            nextId := db.nextId + 1, now := db.now + 1 }
  match payload.gerantId with
  | some g =>
    let ownerRole : HallUserRole :=
      { id := db1.nextId, hallId := hall.id, userId := g,
        role := HallUserRoleType.OWNER, created_at := db1.now }
    (Except.ok hall.toDTO,
      { db1 with hallUserRoles := db1.hallUserRoles ++ [ownerRole],
                 nextId := db1.nextId + 1, now := db1.now + 1 })
  | none => (Except.ok hall.toDTO, db1)

/-- `HallService.updateHall`. -/
def updateHall (db : Db) (id : Nat) (payload : UpdateHallPayload) :
    Except ApiError HallDTO × Db :=
  match db.halls.find? (fun h => h.id = id) with
  | none => (Except.error (ApiError.notFound (ofStr "Hall not found")), db)
  | some hall =>
    let previousGerantId := hall.gerantId
    let hall1 := match payload.slug with
      | some s =>
        if s ≠ [] ∧ jsTrim s ≠ [] ∧ jsLowerStr (jsTrim s) ≠ hall.slug then
          { hall with slug := generateUniqueSlug db.halls db.now (some hall.id) s }
        else hall
      | none => hall
    let hall2 : Hall :=
      { hall1 with
        name := match payload.name with | some n => jsTrim n | none => hall1.name
        address := match payload.address with | some a => some a | none => hall1.address
        city := match payload.city with | some c => some c | none => hall1.city
        capacity := match payload.capacity with | some c => some c | none => hall1.capacity
        description := match payload.description with
          | some d => some d | none => hall1.description
        cancellationPolicy := match payload.cancellationPolicy with
          | some cp => some cp | none => hall1.cancellationPolicy
        isPremium := payload.isPremium.getD hall1.isPremium
        status := payload.status.getD hall1.status
        gerantId := match payload.gerantId with | some g => g | none => hall1.gerantId
        updatedAt := db.now }
    let db1 : Db := { db with
      halls := db.halls.map (fun h => if h.id = hall.id then hall2 else h)
      now := db.now + 1 }
    match payload.gerantId with
    | some g =>
      if g ≠ previousGerantId then
        let roles1 := db1.hallUserRoles.filter
          (fun r => ¬(r.hallId = hall.id ∧ r.role = HallUserRoleType.OWNER))
        match g with
        | some u =>
          let ownerRole : HallUserRole :=
            { id := db1.nextId, hallId := hall.id, userId := u,
              role := HallUserRoleType.OWNER, created_at := db1.now }
          (Except.ok hall2.toDTO,
            { db1 with hallUserRoles := roles1 ++ [ownerRole],
                       nextId := db1.nextId + 1, now := db1.now + 1 })
        | none => (Except.ok hall2.toDTO, { db1 with hallUserRoles := roles1 })
      else (Except.ok hall2.toDTO, db1)
    | none => (Except.ok hall2.toDTO, db1)

/-- `HallService.getHallById`. -/
def getHallById (db : Db) (id : Nat) : Except ApiError HallDTO × Db :=
  match db.halls.find? (fun h => h.id = id) with
  | none => (Except.error (ApiError.notFound (ofStr "Hall not found")), db)
  | some hall => (Except.ok hall.toDTO, db)

/-- `HallService.getHallBySlug`: the looked-up slug is slugified first. -/
def getHallBySlug (db : Db) (slug : JStr) : Except ApiError HallDTO × Db :=
  let normalizedSlug := slugify slug
  match db.halls.find? (fun h => h.slug = normalizedSlug) with
  | none => (Except.error (ApiError.notFound (ofStr "Hall not found")), db)
  | some hall => (Except.ok hall.toDTO, db)

/-! ## Deterministic model of SQL ORDER BY

The services delegate ordering to the database.  We model ORDER BY as a
stable insertion sort over a Boolean "may come before" relation; for the
claims we prove the output pairwise respects the relation, which is all that
SQL guarantees. -/

/-- Insert `x` into `l` before the first element `y` with `le x y`. -/
def insertBy (le : α → α → Bool) (x : α) : List α → List α
  | [] => [x]
  | y :: ys => if le x y then x :: y :: ys else y :: insertBy le x ys

/-- Stable insertion sort by a Boolean relation. -/
def sortBy (le : α → α → Bool) : List α → List α
  | [] => []
  | x :: xs => insertBy le x (sortBy le xs)

/-! ## Hall service list operation -/

/-- Options of `HallService.listHalls`. -/
structure ListHallsOptions where
  status : Option HallStatus
  city : Option JStr
  isPremium : Option Bool
  gerantId : Option Nat
  page : Option Int
  limit : Option Int
deriving DecidableEq

/-- Paginated result of `HallService.listHalls`. -/
structure HallListResult where
  data : List HallDTO
  page : Int
  limit : Int
  total : Nat
deriving DecidableEq

/-- `ORDER BY hall.createdAt DESC`. -/
def hallCreatedAtDesc (a b : Hall) : Bool := b.createdAt ≤ a.createdAt

/-- `HallService.listHalls`: optional status/city/premium/owner filters,
creation time descending, page/limit defaults (page ≥ 1, 1 ≤ limit ≤ 100,
else 1 and 20). -/
def listHalls (db : Db) (options : ListHallsOptions) : HallListResult :=
  let page : Int := match options.page with
    | some p => if p > 0 then p else 1
    | none => 1
  let limit : Int := match options.limit with
    | some l => if l > 0 ∧ l ≤ 100 then l else 20
    | none => 20
  let f1 := match options.status with
    | some s => db.halls.filter (fun h => h.status = s)
    | none => db.halls
  let f2 := match options.city with
    | some c => if c = [] then f1 else
        f1.filter (fun h => match h.city with
          | some hc => jsLowerStr hc = jsLowerStr c
          | none => False)
    | none => f1
  let f3 := match options.isPremium with
    | some b => f2.filter (fun h => h.isPremium = b)
    | none => f2
  let f4 := match options.gerantId with
    | some g => f3.filter (fun h => h.gerantId = some g)
    | none => f3
  let sorted := sortBy hallCreatedAtDesc f4
  { data := ((sorted.drop ((page - 1) * limit).toNat).take limit.toNat).map Hall.toDTO
    page := page, limit := limit, total := f4.length }

/-! ## Pricing service (pricing.service.ts) -/

/-- `HallProductDTO` (pricing.interface.ts). -/
structure HallProductDTO where
  id : Nat
  hallId : Nat
  name : JStr
  category : Option JStr
  description : Option JStr
  isPrimary : Bool
  isActive : Bool
  createdAt : Nat
  updatedAt : Nat
deriving DecidableEq

/-- `PricingService.toHallProductDTO`. -/
def toHallProductDTO (p : HallProduct) : HallProductDTO :=
  { id := p.id, hallId := p.hallId, name := p.name, category := p.category
    description := p.description, isPrimary := p.isPrimary
    isActive := p.isActive, createdAt := p.createdAt, updatedAt := p.updatedAt }

/-- `HallProductRateDTO` (pricing.interface.ts): numeric strings become
numbers at this boundary. -/
structure HallProductRateDTO where
  id : Nat
  hallProductId : Nat
  label : JStr
  currency : JStr
  price : Int
  billingUnit : JStr
  minHours : Option Int
  maxHours : Option Int
  extraUnitPrice : Option Int
  dayOfWeekMask : Option JStr
  seasonStart : Option Nat
  seasonEnd : Option Nat
  isDefault : Bool
  createdAt : Nat
  updatedAt : Nat
deriving DecidableEq

/-- `PricingService.toHallProductRateDTO`. -/
def toHallProductRateDTO (r : HallProductRate) : HallProductRateDTO :=
  { id := r.id, hallProductId := r.hallProductId, label := r.label
    currency := r.currency, price := r.price, billingUnit := r.billingUnit
    minHours := r.minHours, maxHours := r.maxHours
    extraUnitPrice := r.extraUnitPrice, dayOfWeekMask := r.dayOfWeekMask
    seasonStart := r.seasonStart, seasonEnd := r.seasonEnd
    isDefault := r.isDefault, createdAt := r.createdAt, updatedAt := r.updatedAt }

/-- `HallAddonDTO` (pricing.interface.ts). -/
structure HallAddonDTO where
  id : Nat
  hallId : Nat
  name : JStr
  description : Option JStr
  pricingModel : JStr
  currency : JStr
  unitPrice : Int
  packSize : Option Int
  redevanceAmount : Option Int
  isActive : Bool
  createdAt : Nat
  updatedAt : Nat
deriving DecidableEq

/-- `PricingService.toHallAddonDTO`. -/
def toHallAddonDTO (a : HallAddon) : HallAddonDTO :=
  { id := a.id, hallId := a.hallId, name := a.name, description := a.description
    pricingModel := a.pricingModel, currency := a.currency
    unitPrice := a.unitPrice, packSize := a.packSize
    redevanceAmount := a.redevanceAmount, isActive := a.isActive
    createdAt := a.createdAt, updatedAt := a.updatedAt }

/-- `HallBlockedDateDTO` (pricing.interface.ts). -/
structure HallBlockedDateDTO where
  id : Nat
  hallId : Nat
  startDate : Nat
  endDate : Option Nat
  reason : Option JStr
  createdByUserId : Option Nat
  createdAt : Nat
deriving DecidableEq

/-- `PricingService.toHallBlockedDateDTO`. -/
def toHallBlockedDateDTO (b : HallBlockedDate) : HallBlockedDateDTO :=
  { id := b.id, hallId := b.hallId, startDate := b.startDate
    endDate := b.endDate, reason := b.reason
    createdByUserId := b.createdByUserId, createdAt := b.createdAt }

/-- `ORDER BY p.isPrimary DESC, p.createdAt ASC` of `listHallProducts`. -/
def productOrder (a b : HallProduct) : Bool :=
  if a.isPrimary = b.isPrimary then a.createdAt ≤ b.createdAt else a.isPrimary

/-- Options of `PricingService.listHallProducts`. -/
structure ListHallProductsOptions where
  hallId : Nat
  isActive : Option Bool
deriving DecidableEq

/-- `PricingService.listHallProducts`. -/
def listHallProducts (db : Db) (options : ListHallProductsOptions) :
    List HallProductDTO :=
  let f1 := db.hallProducts.filter (fun p => p.hallId = options.hallId)
  let f2 := match options.isActive with
    | some b => f1.filter (fun p => p.isActive = b)
    | none => f1
  (sortBy productOrder f2).map toHallProductDTO

/-- `PricingService.getActiveProductsForHall`. -/
def getActiveProductsForHall (db : Db) (hallId : Nat) : List HallProductDTO :=
  listHallProducts db { hallId := hallId, isActive := some true }

/-- `ORDER BY createdAt ASC` of `listHallProductRates`. -/
def rateCreatedAtAsc (a b : HallProductRate) : Bool := a.createdAt ≤ b.createdAt

/-- `PricingService.listHallProductRates`. -/
def listHallProductRates (db : Db) (hallProductId : Nat) :
    List HallProductRateDTO :=
  (sortBy rateCreatedAtAsc
    (db.hallProductRates.filter (fun r => r.hallProductId = hallProductId))).map
    toHallProductRateDTO

/-- `ORDER BY a.createdAt ASC` of `listHallAddons`. -/
def addonCreatedAtAsc (a b : HallAddon) : Bool := a.createdAt ≤ b.createdAt

/-- Options of `PricingService.listHallAddons`. -/
structure ListHallAddonsOptions where
  hallId : Nat
  isActive : Option Bool
deriving DecidableEq

/-- `PricingService.listHallAddons`. -/
def listHallAddons (db : Db) (options : ListHallAddonsOptions) :
    List HallAddonDTO :=
  let f1 := db.hallAddons.filter (fun a => a.hallId = options.hallId)
  let f2 := match options.isActive with
    | some b => f1.filter (fun a => a.isActive = b)
    | none => f1
  (sortBy addonCreatedAtAsc f2).map toHallAddonDTO

/-- `ORDER BY b.startDate ASC` of `listHallBlockedDates`. -/
def blockedStartDateAsc (a b : HallBlockedDate) : Bool := a.startDate ≤ b.startDate

/-- Options of `PricingService.listHallBlockedDates`. -/
structure ListHallBlockedDatesOptions where
  hallId : Nat
  fromDate : Option Nat
  toDate : Option Nat
deriving DecidableEq

/-- `PricingService.listHallBlockedDates`. -/
def listHallBlockedDates (db : Db) (options : ListHallBlockedDatesOptions) :
    List HallBlockedDateDTO :=
  let f1 := db.hallBlockedDates.filter (fun b => b.hallId = options.hallId)
  let f2 := match options.fromDate with
    | some fd => f1.filter (fun b => fd ≤ b.startDate)
    | none => f1
  let f3 := match options.toDate with
    | some td => f2.filter (fun b => b.startDate ≤ td)
    | none => f2
  (sortBy blockedStartDateAsc f3).map toHallBlockedDateDTO

/-! ## Media service (media.service.ts) -/

/-- `MediaDTO` (media.interface.ts). -/
structure MediaDTO where
  id : Nat
  hallId : Nat
  storageProvider : JStr
  fileUrl : JStr
  originalFilename : Option JStr
  mimeType : Option JStr
  sizeBytes : Option JStr
  width : Option Int
  height : Option Int
  mediaType : MediaType
  sortOrder : Option Int
  createdAt : Nat
  updatedAt : Nat
deriving DecidableEq

/-- `MediaService.toMediaDTO`. -/
def toMediaDTO (m : Media) : MediaDTO :=
  { id := m.id, hallId := m.hallId, storageProvider := m.storageProvider
    fileUrl := m.fileUrl, originalFilename := m.originalFilename
    mimeType := m.mimeType, sizeBytes := m.sizeBytes
    width := m.width, height := m.height, mediaType := m.mediaType
    sortOrder := m.sortOrder, createdAt := m.createdAt, updatedAt := m.updatedAt }

/-- `MediaTagDTO` (media.interface.ts). -/
structure MediaTagDTO where
  id : Nat
  mediaId : Nat
  tagTypeId : Nat
  tagName : JStr
  isPrimary : Bool
  createdAt : Nat
deriving DecidableEq

/-- `MediaService.toMediaTagDTO`. -/
def toMediaTagDTO (t : MediaTag) (tagName : JStr) : MediaTagDTO :=
  { id := t.id, mediaId := t.mediaId, tagTypeId := t.tagTypeId
    tagName := tagName, isPrimary := t.isPrimary, createdAt := t.createdAt }

/-- `MediaService.findOrCreateTagTypeByName`: case-insensitive lookup on the
trimmed name, creating the tag type on first use. -/
def findOrCreateTagTypeByName (db : Db) (name : JStr) : MediaTagType × Db :=
  let normalized := jsTrim name
  match db.mediaTagTypes.find?
      (fun t => jsLowerStr t.name = jsLowerStr normalized) with
  | some t => (t, db)
  | none =>
    let t : MediaTagType :=
      { id := db.nextId, name := normalized, description := none, createdAt := db.now }
    (t, { db with mediaTagTypes := db.mediaTagTypes ++ [t],
                  nextId := db.nextId + 1, now := db.now + 1 })

/-- `MediaService.unsetExistingPrimaryForHallAndTagType`: join tag → media,
filter by hall, tag type and `isPrimary = true`, set all matches to
`isPrimary = false`. -/
def unsetExistingPrimaryForHallAndTagType (db : Db) (hallId tagTypeId : Nat) : Db :=
  { db with mediaTags := db.mediaTags.map (fun t =>
      if (db.media.any (fun m => m.id = t.mediaId ∧ m.hallId = hallId)) ∧
          t.tagTypeId = tagTypeId ∧ t.isPrimary
      then { t with isPrimary := false } else t) }

/-- Options of `MediaService.tagMediaByName`. -/
structure TagMediaOptions where
  mediaId : Nat
  tagName : JStr
  isPrimary : Option Bool
deriving DecidableEq

/-- `MediaService.tagMediaByName`. -/
def tagMediaByName (db : Db) (options : TagMediaOptions) :
    Except ApiError MediaTagDTO × Db :=
  let isPrimary := options.isPrimary.getD false
  match db.media.find? (fun m => m.id = options.mediaId) with
  | none => (Except.error (ApiError.notFound (ofStr "Media not found")), db)
  | some media =>
    let tdb := findOrCreateTagTypeByName db options.tagName
    let tagType := tdb.1
    let db1 := tdb.2
    let db2 := if isPrimary then
        unsetExistingPrimaryForHallAndTagType db1 media.hallId tagType.id
      else db1
    let mediaTag : MediaTag :=
      { id := db2.nextId, mediaId := media.id, tagTypeId := tagType.id,
        isPrimary := isPrimary, createdAt := db2.now }
    (Except.ok (toMediaTagDTO mediaTag tagType.name),
      { db2 with mediaTags := db2.mediaTags ++ [mediaTag],
                 nextId := db2.nextId + 1, now := db2.now + 1 })

/-- `ORDER BY m.sortOrder ASC, m.createdAt DESC` of `listMediaForHall`
(SQL ASC puts NULL sort orders last). -/
def mediaListOrder (a b : Media) : Bool :=
  match a.sortOrder, b.sortOrder with
  | some x, some y => if x = y then b.createdAt ≤ a.createdAt else x ≤ y
  | some _, none => true
  | none, some _ => false
  | none, none => b.createdAt ≤ a.createdAt

/-- Options of `MediaService.listMediaForHall`. -/
structure ListMediaOptions where
  hallId : Nat
  tagName : Option JStr
  mediaType : Option MediaType
deriving DecidableEq

/-- `MediaService.listMediaForHall`. -/
def listMediaForHall (db : Db) (options : ListMediaOptions) : List MediaDTO :=
  let f1 := db.media.filter (fun m => m.hallId = options.hallId)
  let f2 := match options.mediaType with
    | some mt => f1.filter (fun m => m.mediaType = mt)
    | none => f1
  let f3 := match options.tagName with
    | some tn =>
      if tn = [] then f2 else
        f2.filter (fun m => db.mediaTags.any (fun mt => mt.mediaId = m.id ∧
          db.mediaTagTypes.any (fun tt => tt.id = mt.tagTypeId ∧
            jsLowerStr tt.name = jsLowerStr tn)))
    | none => f2
  (sortBy mediaListOrder f3).map toMediaDTO

/-- `ORDER BY m.createdAt DESC` of `getPrimaryMediaForHall`. -/
def mediaCreatedAtDesc (a b : Media) : Bool := b.createdAt ≤ a.createdAt

/-- `MediaService.getPrimaryMediaForHall`: the most recent media of the hall
holding a primary tag of the (case-insensitively) named type; `none` when
there is no such media. -/
def getPrimaryMediaForHall (db : Db) (hallId : Nat) (tagName : JStr) :
    Option MediaDTO :=
  let matched := db.media.filter (fun m => m.hallId = hallId ∧
    db.mediaTags.any (fun mt => mt.mediaId = m.id ∧ mt.isPrimary ∧
      db.mediaTagTypes.any (fun tt => tt.id = mt.tagTypeId ∧
        jsLowerStr tt.name = jsLowerStr tagName)))
  ((sortBy mediaCreatedAtDesc matched).head?).map toMediaDTO

/-! ## Host application service (host-application.service.ts) -/

/-- `HostApplicationDTO` (host-application.interface.ts). -/
structure HostApplicationDTO where
  id : Nat
  hallName : JStr
  address : Option JStr
  city : Option JStr
  capacity : Option Int
  description : Option JStr
  additionalDetails : Option JStr
  contactName : JStr
  contactEmail : JStr
  contactPhone : Option JStr
  contactWhatsapp : Option JStr
  status : HostApplicationStatus
  adminNotes : Option JStr
  reviewedByUserId : Option Nat
  reviewedAt : Option Nat
  createdAt : Nat
  updatedAt : Nat
  applicantUserId : Option Nat
deriving DecidableEq

/-- `HostApplicationService.toDTO`. -/
def HostApplication.toDTO (a : HostApplication) : HostApplicationDTO :=
  { id := a.id, hallName := a.hallName, address := a.address, city := a.city
    capacity := a.capacity, description := a.description
    additionalDetails := a.additionalDetails, contactName := a.contactName
    contactEmail := a.contactEmail, contactPhone := a.contactPhone
    contactWhatsapp := a.contactWhatsapp, status := a.status
    adminNotes := a.adminNotes, reviewedByUserId := a.reviewedByUserId
    reviewedAt := a.reviewedAt, createdAt := a.createdAt
    updatedAt := a.updatedAt, applicantUserId := a.applicantUserId }

/-- `UpdateHostApplicationStatusPayload` (host-application.interface.ts). -/
structure UpdateHostApplicationStatusPayload where
  status : HostApplicationStatus
  adminNotes : Option JStr
  reviewedByUserId : Option Nat
deriving DecidableEq

/-- `HostApplicationService.updateHostApplicationStatus`: merge status/notes/
reviewer, stamp `reviewedAt` on first transition into a final status, and on
a transition into APPROVED (from non-APPROVED) with an applicant user id
present, create a DRAFT hall owned by the applicant via the hall service. -/
def updateHostApplicationStatus (db : Db) (id : Nat)
    (payload : UpdateHostApplicationStatusPayload) :
    Except ApiError HostApplicationDTO × Db :=
  match db.hostApplications.find? (fun a => a.id = id) with
  | none => (Except.error (ApiError.notFound (ofStr "Host application not found")), db)
  | some entity =>
    let previousStatus := entity.status
    let isFinalStatus := payload.status = HostApplicationStatus.APPROVED ∨
      payload.status = HostApplicationStatus.REJECTED
    let entity1 : HostApplication :=
      { entity with
        status := payload.status
        adminNotes := match payload.adminNotes with
          | some n => some n | none => entity.adminNotes
        reviewedByUserId := match payload.reviewedByUserId with
          | some r => some r | none => entity.reviewedByUserId
        reviewedAt := if isFinalStatus ∧ entity.reviewedAt = none
          then some db.now else entity.reviewedAt
        updatedAt := db.now }
    let db1 : Db := { db with
      hostApplications := db.hostApplications.map
        (fun a => if a.id = entity.id then entity1 else a)
      now := db.now + 1 }
    let justApproved := previousStatus ≠ HostApplicationStatus.APPROVED ∧
      payload.status = HostApplicationStatus.APPROVED
    if justApproved then
      match entity.applicantUserId with
      | some applicant =>
        let created := createHall db1
          { name := entity.hallName, slug := none
            address := entity.address, city := entity.city
            capacity := entity.capacity, description := entity.description
            cancellationPolicy := none, isPremium := some false
            status := some HallStatus.DRAFT, gerantId := some applicant }
        (Except.ok entity1.toDTO, created.2)
      | none => (Except.ok entity1.toDTO, db1)
    else (Except.ok entity1.toDTO, db1)

/-! ## Hall query service (hall-query.service.ts) -/

/-- `HallSortBy` (hall.interface.ts). -/
inductive HallSortBy
  | relevance
  | price_asc
  | price_desc
  | capacity_desc
  | featured
deriving DecidableEq

/-- `HallSearchFilters` (hall.interface.ts); the `date` filter is a day
number like the `date` columns. -/
structure HallSearchFilters where
  q : Option JStr
  city : Option JStr
  eventType : Option JStr
  date : Option Nat
  capacityMin : Option Int
  capacityMax : Option Int
  priceMin : Option Int
  priceMax : Option Int
  isPremium : Option Bool
  features : Option (List JStr)
  sortBy : Option HallSortBy
  page : Option Int
  limit : Option Int
deriving DecidableEq

/-- `PublicHallCardDTO` (hall.interface.ts). -/
structure PublicHallCardDTO where
  id : Nat
  name : JStr
  slug : JStr
  city : Option JStr
  capacity : Option Int
  isPremium : Bool
  heroImageUrl : Option JStr
  startingFromPrice : Option Int
  startingFromCurrency : Option JStr
deriving DecidableEq

/-- Does `needle` start `hay` (code-point-wise)? -/
def startsAt : JStr → JStr → Bool
  | [], _ => true
  | _ :: _, [] => false
  | a :: as, b :: bs => a = b && startsAt as bs

/-- Does `needle` occur contiguously in `hay`? -/
def hasSub (needle : JStr) : JStr → Bool
  | [] => startsAt needle []
  | c :: rest => startsAt needle (c :: rest) || hasSub needle rest

/-- SQL `column ILIKE '%pat%'`: case-insensitive substring match. -/
def ilikeSub (pat : JStr) (s : JStr) : Bool :=
  hasSub (jsLowerStr pat) (jsLowerStr s)

/-- One row of the left-joined source
`halls h LEFT JOIN hall_products hp ON hp.hall_id = h.id AND hp.isActive
LEFT JOIN hall_product_rates hpr ON hpr.hall_product_id = hp.id`:
`product`/`rate` are `none` on the padded side of the outer join. -/
structure QueryRow where
  hall : Hall
  product : Option HallProduct
  rate : Option HallProductRate
deriving DecidableEq

/-- The join rows contributed by one hall. -/
def hallJoinRows (db : Db) (h : Hall) : List QueryRow :=
  let prods := db.hallProducts.filter (fun p => p.hallId = h.id ∧ p.isActive)
  if prods = [] then [{ hall := h, product := none, rate := none }]
  else prods.flatMap (fun p =>
    let rs := db.hallProductRates.filter (fun r => r.hallProductId = p.id)
    if rs = [] then [{ hall := h, product := some p, rate := none }]
    else rs.map (fun r => { hall := h, product := some p, rate := some r }))

/-- The WHERE clause of `getPublicHallList` on one join row.  A SQL
comparison against NULL is never true, so predicates over the padded join
side or a NULL column evaluate to `false`. -/
def rowWhere (db : Db) (filters : HallSearchFilters) (row : QueryRow) : Bool :=
  (row.hall.status = HallStatus.ACTIVE)
  && (match filters.city with
      | some c => if c = [] then true else row.hall.city = some c
      | none => true)
  && (match filters.isPremium with
      | some b => row.hall.isPremium = b
      | none => true)
  && (match filters.capacityMin with
      | some m => match row.hall.capacity with
        | some cap => m ≤ cap
        | none => false
      | none => true)
  && (match filters.capacityMax with
      | some m => match row.hall.capacity with
        | some cap => cap ≤ m
        | none => false
      | none => true)
  && (match filters.q with
      | some q => if q = [] then true else
          ilikeSub q row.hall.name
          || (match row.hall.city with | some c => ilikeSub q c | none => false)
          || (match row.hall.description with
              | some d => ilikeSub q d | none => false)
          || (match row.product with
              | some p => ilikeSub q p.name | none => false)
      | none => true)
  && (match filters.eventType with
      | some et => if et = [] then true else
          match row.product with
          | some p => p.category = some et
          | none => false
      | none => true)
  && (match filters.date with
      | some d => !db.hallBlockedDates.any (fun bd => bd.hallId = row.hall.id ∧
          bd.startDate ≤ d ∧ (bd.endDate = none ∨ ∃ e, bd.endDate = some e ∧ d ≤ e))
      | none => true)

/-- Minimum of a list of integers (SQL `MIN` over the group, ignoring
nothing: the caller already dropped NULLs). -/
def listMinInt : List Int → Option Int
  | [] => none
  | x :: xs => some (match listMinInt xs with | none => x | some m => min x m)

/-- Lexicographic order on strings, as SQL compares `varchar`. -/
def jstrLexLe : JStr → JStr → Bool
  | [], _ => true
  | _ :: _, [] => false
  | a :: as, b :: bs => a < b || (a = b && jstrLexLe as bs)

/-- Minimum of a list of strings (SQL `MIN(currency)`). -/
def listMinJStr : List JStr → Option JStr
  | [] => none
  | x :: xs => some (match listMinJStr xs with
      | none => x
      | some m => if jstrLexLe x m then x else m)

/-- One grouped (GROUP BY h.id) result row: the hall with its aggregated
`MIN(hpr.price)` and `MIN(hpr.currency)`. -/
structure GroupedRow where
  hall : Hall
  minPrice : Option Int
  minCurrency : Option JStr
deriving DecidableEq

/-- The grouped rows of `getPublicHallList` before HAVING: halls with at
least one join row surviving the WHERE clause, with their aggregates. -/
def groupedRows (db : Db) (filters : HallSearchFilters) : List GroupedRow :=
  (db.halls.map (fun h =>
      let rows := (hallJoinRows db h).filter (rowWhere db filters)
      { hall := h
        minPrice := listMinInt (rows.filterMap (fun r => r.rate.map (fun x => x.price)))
        minCurrency := listMinJStr
          (rows.filterMap (fun r => r.rate.map (fun x => x.currency)))
        : GroupedRow })).filter
    (fun g => (hallJoinRows db g.hall).filter (rowWhere db filters) ≠ [])

/-- The HAVING clause: `MIN(hpr.price) >= priceMin AND MIN(hpr.price) <=
priceMax` when present; with a NULL aggregate the comparison is NULL and the
group is dropped. -/
def havingPass (filters : HallSearchFilters) (minPrice : Option Int) : Bool :=
  (match filters.priceMin with
    | some pm => match minPrice with | some m => pm ≤ m | none => false
    | none => true)
  && (match filters.priceMax with
    | some pm => match minPrice with | some m => m ≤ pm | none => false
    | none => true)

/-- `ORDER BY min_price ASC NULLS LAST`. -/
def optIntAscNL : Option Int → Option Int → Bool
  | some x, some y => x ≤ y
  | some _, none => true
  | none, some _ => false
  | none, none => true

/-- `ORDER BY min_price DESC NULLS LAST`. -/
def optIntDescNL : Option Int → Option Int → Bool
  | some x, some y => y ≤ x
  | some _, none => true
  | none, some _ => false
  | none, none => true

/-- The ORDER BY of `getPublicHallList` per sort mode. -/
def publicSortRel (sortMode : HallSortBy) (a b : GroupedRow) : Bool :=
  match sortMode with
  | HallSortBy.price_asc => optIntAscNL a.minPrice b.minPrice
  | HallSortBy.price_desc => optIntDescNL a.minPrice b.minPrice
  | HallSortBy.capacity_desc => optIntDescNL a.hall.capacity b.hall.capacity
  | HallSortBy.relevance =>
    if a.hall.isPremium = b.hall.isPremium then
      if a.minPrice = b.minPrice then b.hall.createdAt ≤ a.hall.createdAt
      else optIntAscNL a.minPrice b.minPrice
    else a.hall.isPremium
  | HallSortBy.featured =>
    if a.hall.isPremium = b.hall.isPremium then b.hall.createdAt ≤ a.hall.createdAt
    else a.hall.isPremium

/-- Paginated result of `getPublicHallList`. -/
structure PublicHallListResult where
  data : List PublicHallCardDTO
  page : Int
  limit : Int
  total : Nat
deriving DecidableEq

/-- `HallQueryService.getPublicHallList`. -/
def getPublicHallList (db : Db) (filters : HallSearchFilters) :
    PublicHallListResult :=
  let page : Int := filters.page.getD 1
  let limit : Int := filters.limit.getD 20
  let offset : Int := (page - 1) * limit
  let afterHaving := (groupedRows db filters).filter
    (fun g => havingPass filters g.minPrice)
  let sortMode := filters.sortBy.getD HallSortBy.featured
  let sorted := sortBy (publicSortRel sortMode) afterHaving
  let total := afterHaving.length
  let pageRows := (sorted.drop offset.toNat).take limit.toNat
  let data := pageRows.map (fun g =>
    { id := g.hall.id, name := g.hall.name, slug := g.hall.slug
      city := g.hall.city, capacity := g.hall.capacity
      isPremium := g.hall.isPremium
      heroImageUrl := (getPrimaryMediaForHall db g.hall.id (ofStr "HERO")).map
        (fun m => m.fileUrl)
      startingFromPrice := g.minPrice
      startingFromCurrency := if g.minPrice.isSome then g.minCurrency else none
      : PublicHallCardDTO })
  { data := data, page := page, limit := limit, total := total }

/-- `PublicHallRateDTO` (hall.interface.ts). -/
structure PublicHallRateDTO where
  id : Nat
  label : JStr
  currency : JStr
  price : Int
  billingUnit : JStr
  minHours : Option Int
  maxHours : Option Int
  extraUnitPrice : Option Int
  dayOfWeekMask : Option JStr
  seasonStart : Option Nat
  seasonEnd : Option Nat
  isDefault : Bool
deriving DecidableEq

/-- `PublicHallProductDTO` (hall.interface.ts). -/
structure PublicHallProductDTO where
  id : Nat
  name : JStr
  category : Option JStr
  description : Option JStr
  isPrimary : Bool
  rates : List PublicHallRateDTO
deriving DecidableEq

/-- `PublicHallAddonDTO` (hall.interface.ts). -/
structure PublicHallAddonDTO where
  id : Nat
  name : JStr
  description : Option JStr
  pricingModel : JStr
  currency : JStr
  unitPrice : Int
  packSize : Option Int
  isActive : Bool
deriving DecidableEq

/-- `PublicHallDetailDTO` (hall.interface.ts). -/
structure PublicHallDetailDTO where
  id : Nat
  name : JStr
  slug : JStr
  address : Option JStr
  city : Option JStr
  capacity : Option Int
  description : Option JStr
  cancellationPolicy : Option JStr
  isPremium : Bool
  heroImageUrl : Option JStr
  gallery : List MediaDTO
  products : List PublicHallProductDTO
  addons : List PublicHallAddonDTO
deriving DecidableEq

/-- `HallQueryService.getPublicHallDetail`: load the hall by slug, reject a
non-ACTIVE hall with NotFound, then assemble hero, gallery, active products
with rates, and active addons. -/
def getPublicHallDetail (db : Db) (slug : JStr) :
    Except ApiError PublicHallDetailDTO × Db :=
  match (getHallBySlug db slug).1 with
  | Except.error e => (Except.error e, db)
  | Except.ok hall =>
    if hall.status ≠ HallStatus.ACTIVE then
      (Except.error (ApiError.notFound (ofStr "Hall not found")), db)
    else
      let hero := getPrimaryMediaForHall db hall.id (ofStr "HERO")
      let gallery := listMediaForHall db
        { hallId := hall.id, tagName := none, mediaType := some MediaType.IMAGE }
      let productDTOs := getActiveProductsForHall db hall.id
      let publicProducts := productDTOs.map (fun p =>
        { id := p.id, name := p.name, category := p.category
          description := p.description, isPrimary := p.isPrimary
          rates := (listHallProductRates db p.id).map (fun r =>
            { id := r.id, label := r.label, currency := r.currency
              price := r.price, billingUnit := r.billingUnit
              minHours := r.minHours, maxHours := r.maxHours
              extraUnitPrice := r.extraUnitPrice
              dayOfWeekMask := r.dayOfWeekMask
              seasonStart := r.seasonStart, seasonEnd := r.seasonEnd
              isDefault := r.isDefault : PublicHallRateDTO })
          : PublicHallProductDTO })
      let addonDTOs := listHallAddons db { hallId := hall.id, isActive := some true }
      let publicAddons := addonDTOs.map (fun a =>
        { id := a.id, name := a.name, description := a.description
          pricingModel := a.pricingModel, currency := a.currency
          unitPrice := a.unitPrice, packSize := a.packSize
          isActive := a.isActive : PublicHallAddonDTO })
      (Except.ok
        { id := hall.id, name := hall.name, slug := hall.slug
          address := hall.address, city := hall.city, capacity := hall.capacity
          description := hall.description
          cancellationPolicy := hall.cancellationPolicy
          isPremium := hall.isPremium
          heroImageUrl := hero.map (fun m => m.fileUrl)
          gallery := gallery, products := publicProducts
          addons := publicAddons }, db)

/-! ## Observation functions used by the statements -/

/-- The slugs currently stored in the halls table. -/
def hallSlugs (db : Db) : List JStr := db.halls.map (fun h => h.slug)

/-- The OWNER role rows of one hall. -/
def ownerRolesFor (db : Db) (hallId : Nat) : List HallUserRole :=
  db.hallUserRoles.filter
    (fun r => r.hallId = hallId ∧ r.role = HallUserRoleType.OWNER)

/-- The primary media tags of one hall and tag type (a tag belongs to a hall
through its media row, as in `unsetExistingPrimaryForHallAndTagType`'s join). -/
def primaryTagsFor (db : Db) (hallId tagTypeId : Nat) : List MediaTag :=
  db.mediaTags.filter (fun t => t.isPrimary ∧ t.tagTypeId = tagTypeId ∧
    db.media.any (fun m => m.id = t.mediaId ∧ m.hallId = hallId))

/-- The service-enforced invariant: at most one primary tag per
(hall, tag type). -/
def mediaPrimaryInvariant (db : Db) : Prop :=
  ∀ hallId tagTypeId, (primaryTagsFor db hallId tagTypeId).length ≤ 1

/-- The rates hanging off a hall's active products (the rows aggregated by
`getPublicHallList`'s `MIN(hpr.price)`). -/
def activeRatesOf (db : Db) (h : Hall) : List HallProductRate :=
  (db.hallProducts.filter (fun p => p.hallId = h.id ∧ p.isActive)).flatMap
    (fun p => db.hallProductRates.filter (fun r => r.hallProductId = p.id))

/-- A hall's minimum price over the rates of its active products (`none` when
no such rate exists). -/
def minActivePrice (db : Db) (h : Hall) : Option Int :=
  listMinInt ((activeRatesOf db h).map (fun r => r.price))

/-! ## Concrete sample data (used by the witness statements) -/

/-- A database with empty tables. -/
def emptyDb : Db :=
  { halls := [], hallUserRoles := [], hallProducts := [], hallProductRates := []
    hallAddons := [], hallBlockedDates := [], media := [], mediaTags := []
    mediaTagTypes := [], hostApplications := [], nextId := 100, now := 1000 }

/-- Sample hall-creation payload with no explicit slug. -/
def pLakeview : CreateHallPayload :=
  { name := ofStr "Lakeview", slug := none, address := none
    city := some (ofStr "Kinshasa"), capacity := none, description := none
    cancellationPolicy := none, isPremium := none, status := none
    gerantId := none }

/-- Sample blocked date: early start, late creation. -/
def bdLate : HallBlockedDate :=
  { id := 1, hallId := 7, startDate := 50, endDate := none, reason := none
    createdByUserId := none, createdAt := 10 }

/-- Sample blocked date: late start, early creation. -/
def bdEarly : HallBlockedDate :=
  { id := 2, hallId := 7, startDate := 30, endDate := none, reason := none
    createdByUserId := none, createdAt := 20 }

/-- Database whose blocked dates are created in the opposite order of their
start dates. -/
def dbBlocked : Db := { emptyDb with hallBlockedDates := [bdLate, bdEarly] }

/-- Sample media row of hall 7. -/
def mediaOne : Media :=
  { id := 11, hallId := 7, storageProvider := ofStr "SUPABASE"
    fileUrl := ofStr "https://x/u1", originalFilename := none, mimeType := none
    sizeBytes := none, width := none, height := none
    mediaType := MediaType.IMAGE, sortOrder := none, createdAt := 1, updatedAt := 1 }

/-- A second media row of hall 7. -/
def mediaTwo : Media :=
  { mediaOne with id := 12, fileUrl := ofStr "https://x/u2", createdAt := 2 }

/-- Database with the two media rows of hall 7. -/
def dbMedia : Db := { emptyDb with media := [mediaOne, mediaTwo] }

/-- Sample host application with an applicant attached. -/
def appRosa : HostApplication :=
  { id := 31, applicantUserId := some 77, hallName := ofStr "Salle Rosa"
    address := none, city := some (ofStr "Kinshasa"), capacity := some 200
    description := none, additionalDetails := none
    contactName := ofStr "G", contactEmail := ofStr "g@x.com"
    contactPhone := none, contactWhatsapp := none
    status := HostApplicationStatus.NEW, adminNotes := none
    reviewedByUserId := none, reviewedAt := none, createdAt := 5, updatedAt := 5 }

/-- Database holding the sample host application. -/
def dbApp : Db := { emptyDb with hostApplications := [appRosa] }

/-- Sample ACTIVE hall (id 1). -/
def hallOne : Hall :=
  { id := 1, gerantId := none, name := ofStr "A", slug := ofStr "a"
    address := none, city := none, capacity := some 100, description := none
    cancellationPolicy := none, isPremium := false
    status := HallStatus.ACTIVE, createdAt := 1, updatedAt := 1 }

/-- Sample ACTIVE hall (id 2). -/
def hallTwo : Hall := { hallOne with id := 2, name := ofStr "B", slug := ofStr "b", createdAt := 2 }

/-- Sample ACTIVE hall (id 3), left without rates. -/
def hallThree : Hall := { hallOne with id := 3, name := ofStr "C", slug := ofStr "c", createdAt := 3 }

/-- Sample ACTIVE hall (id 4). -/
def hallFour : Hall := { hallOne with id := 4, name := ofStr "D", slug := ofStr "d", createdAt := 4 }

/-- Sample DRAFT hall. -/
def hallDraft : Hall :=
  { hallOne with id := 9, slug := ofStr "draft-hall", status := HallStatus.DRAFT }

/-- Database holding only the DRAFT hall. -/
def dbDraft : Db := { emptyDb with halls := [hallDraft] }

/-- An active sample product of a given hall. -/
def sampleProduct (pid hid : Nat) : HallProduct :=
  { id := pid, hallId := hid, name := ofStr "P", category := none
    description := none, isPrimary := false, isActive := true
    createdAt := 1, updatedAt := 1 }

/-- A sample rate of a given product. -/
def sampleRate (rid pid : Nat) (price : Int) : HallProductRate :=
  { id := rid, hallProductId := pid, label := ofStr "L", currency := ofStr "USD"
    price := price, billingUnit := ofStr "EVENT", minHours := none
    maxHours := none, extraUnitPrice := none, dayOfWeekMask := none
    seasonStart := none, seasonEnd := none, isDefault := false
    createdAt := 1, updatedAt := 1 }

/-- Search database: hall 1 min 300, hall 2 min 50, hall 3 no rate,
hall 4 min 120. -/
def dbSearch : Db := { emptyDb with
  halls := [hallOne, hallTwo, hallThree, hallFour]
  hallProducts := [sampleProduct 10 1, sampleProduct 20 2, sampleProduct 30 3,
    sampleProduct 40 4]
  hallProductRates := [sampleRate 100 10 300, sampleRate 101 10 450,
    sampleRate 200 20 50, sampleRate 400 40 120] }

/-- Search filters of the priced scenario: price in [100, 500], ascending. -/
def searchFilters : HallSearchFilters :=
  { q := none, city := none, eventType := none, date := none
    capacityMin := none, capacityMax := none
    priceMin := some 100, priceMax := some 500
    isPremium := none, features := none, sortBy := some HallSortBy.price_asc
    page := none, limit := some 50 }

/-! # Proofs -/

/-! ## General lemmas about the ORDER BY model -/

theorem insertBy_perm {α : Type} (le : α → α → Bool) (x : α) (l : List α) :
    (insertBy le x l).Perm (x :: l) := by
  induction l with
  | nil => exact List.Perm.refl _
  | cons y ys ih =>
    simp only [insertBy]
    by_cases h : le x y = true
    · simp [h]
    · simp only [h, if_false]
      exact (ih.cons y).trans (List.Perm.swap x y ys)

theorem sortBy_perm {α : Type} (le : α → α → Bool) (l : List α) :
    (sortBy le l).Perm l := by
  induction l with
  | nil => exact List.Perm.refl _
  | cons x xs ih => exact (insertBy_perm le x (sortBy le xs)).trans (ih.cons x)

theorem mem_sortBy {α : Type} {le : α → α → Bool} {l : List α} {a : α} :
    a ∈ sortBy le l ↔ a ∈ l :=
  (sortBy_perm le l).mem_iff

theorem mem_insertBy {α : Type} {le : α → α → Bool} {l : List α} {x a : α} :
    a ∈ insertBy le x l ↔ a = x ∨ a ∈ l := by
  rw [(insertBy_perm le x l).mem_iff, List.mem_cons]

theorem pairwise_insertBy {α : Type} {le : α → α → Bool}
    (total : ∀ a b, le a b = true ∨ le b a = true)
    (trans : ∀ a b c, le a b = true → le b c = true → le a c = true)
    {x : α} {l : List α} (h : l.Pairwise (fun a b => le a b = true)) :
    (insertBy le x l).Pairwise (fun a b => le a b = true) := by
  induction l with
  | nil => simp [insertBy]
  | cons y ys ih =>
    rcases List.pairwise_cons.mp h with ⟨hy, hys⟩
    simp only [insertBy]
    by_cases hxy : le x y = true
    · rw [if_pos hxy]
      refine List.pairwise_cons.mpr ⟨?_, h⟩
      intro z hz
      rcases List.mem_cons.mp hz with rfl | hz
      · exact hxy
      · exact trans x y z hxy (hy z hz)
    · rw [if_neg hxy]
      refine List.pairwise_cons.mpr ⟨?_, ih hys⟩
      intro z hz
      rcases mem_insertBy.mp hz with rfl | hz
      · rcases total z y with hzy | hyz
        · exact absurd hzy hxy
        · exact hyz
      · exact hy z hz

theorem pairwise_sortBy {α : Type} {le : α → α → Bool}
    (total : ∀ a b, le a b = true ∨ le b a = true)
    (trans : ∀ a b c, le a b = true → le b c = true → le a c = true)
    (l : List α) : (sortBy le l).Pairwise (fun a b => le a b = true) := by
  induction l with
  | nil => simp [sortBy]
  | cons x xs ih => exact pairwise_insertBy total trans ih

/-! ## General lemma about primary-key lookups -/

theorem find?_key {α β : Type} [DecidableEq β] (key : α → β) {l : List α}
    (hn : (l.map key).Nodup) {a : α} (ha : a ∈ l) {k : β} (hk : key a = k) :
    l.find? (fun x => key x = k) = some a := by
  induction l with
  | nil => cases ha
  | cons b bs ih =>
    rw [List.map_cons] at hn
    rcases List.nodup_cons.mp hn with ⟨hb, hbs⟩
    rcases List.mem_cons.mp ha with rfl | ha
    · exact List.find?_cons_of_pos _ (by simpa using hk)
    · have hne : key b ≠ k := by
        intro he
        have hmem : key a ∈ List.map key bs := List.mem_map_of_mem key ha
        rw [hk, ← he] at hmem
        exact hb hmem
      rw [List.find?_cons_of_neg _ (by simpa using hne)]
      exact ih hbs ha

/-! ## C7: listHalls status filtering -/

/-- C7: every hall returned by `listHalls` with a status filter has exactly
that status; in particular `listHalls {status := ACTIVE}` never returns a
DRAFT or ARCHIVED hall. -/
theorem listHalls_status_filter (db : Db) (options : ListHallsOptions)
    (s : HallStatus) (hs : options.status = some s) :
    ∀ dto ∈ (listHalls db options).data, dto.status = s := by
  intro dto hdto
  simp only [listHalls, hs] at hdto
  rcases List.mem_map.mp hdto with ⟨h, hmem, rfl⟩
  have hmem2 := mem_sortBy.mp (List.mem_of_mem_drop (List.mem_of_mem_take hmem))
  have hf1 : h ∈ db.halls.filter (fun x => x.status = s) := by
    repeat
      first
      | exact hmem2
      | replace hmem2 := (List.mem_filter.mp hmem2).1
      | split at hmem2
  have := (List.mem_filter.mp hf1).2
  simp only [decide_eq_true_eq] at this
  simpa [Hall.toDTO] using this

/-- Witness for C7 at a concrete database, filter and returned row. -/
theorem listHalls_status_filter_witness :
    ({ status := some HallStatus.DRAFT, city := none, isPremium := none
       gerantId := none, page := none, limit := none
       : ListHallsOptions }).status = some HallStatus.DRAFT ∧
    Hall.toDTO hallDraft ∈ (listHalls dbDraft
      { status := some HallStatus.DRAFT, city := none, isPremium := none
        gerantId := none, page := none, limit := none }).data ∧
    (Hall.toDTO hallDraft).status = HallStatus.DRAFT :=
  ⟨rfl, by decide,
    listHalls_status_filter dbDraft
      { status := some HallStatus.DRAFT, city := none, isPremium := none
        gerantId := none, page := none, limit := none }
      HallStatus.DRAFT rfl (Hall.toDTO hallDraft) (by decide)⟩

/-! ## C8: pricing list orderings -/

theorem productOrder_total (a b : HallProduct) :
    productOrder a b = true ∨ productOrder b a = true := by
  unfold productOrder
  cases pa : a.isPrimary <;> cases pb : b.isPrimary <;>
    simp_all <;> omega

theorem productOrder_trans (a b c : HallProduct) (h1 : productOrder a b = true)
    (h2 : productOrder b c = true) : productOrder a c = true := by
  unfold productOrder at h1 h2 ⊢
  cases pa : a.isPrimary <;> cases pb : b.isPrimary <;> cases pc : c.isPrimary <;>
    simp_all <;> omega

theorem rateCreatedAtAsc_total (a b : HallProductRate) :
    rateCreatedAtAsc a b = true ∨ rateCreatedAtAsc b a = true := by
  simp only [rateCreatedAtAsc, decide_eq_true_eq]
  omega

theorem rateCreatedAtAsc_trans (a b c : HallProductRate)
    (h1 : rateCreatedAtAsc a b = true) (h2 : rateCreatedAtAsc b c = true) :
    rateCreatedAtAsc a c = true := by
  simp only [rateCreatedAtAsc, decide_eq_true_eq] at h1 h2 ⊢
  omega

theorem addonCreatedAtAsc_total (a b : HallAddon) :
    addonCreatedAtAsc a b = true ∨ addonCreatedAtAsc b a = true := by
  simp only [addonCreatedAtAsc, decide_eq_true_eq]
  omega

theorem addonCreatedAtAsc_trans (a b c : HallAddon)
    (h1 : addonCreatedAtAsc a b = true) (h2 : addonCreatedAtAsc b c = true) :
    addonCreatedAtAsc a c = true := by
  simp only [addonCreatedAtAsc, decide_eq_true_eq] at h1 h2 ⊢
  omega

theorem blockedStartDateAsc_total (a b : HallBlockedDate) :
    blockedStartDateAsc a b = true ∨ blockedStartDateAsc b a = true := by
  simp only [blockedStartDateAsc, decide_eq_true_eq]
  omega

theorem blockedStartDateAsc_trans (a b c : HallBlockedDate)
    (h1 : blockedStartDateAsc a b = true) (h2 : blockedStartDateAsc b c = true) :
    blockedStartDateAsc a c = true := by
  simp only [blockedStartDateAsc, decide_eq_true_eq] at h1 h2 ⊢
  omega

/-- C8 counterexample: with two blocked dates whose creation order is the
opposite of their start-date order, `listHallBlockedDates` does not return
rows in creation-time ascending order (the code orders by `startDate`). -/
theorem listHallBlockedDates_not_by_createdAt :
    ¬ (listHallBlockedDates dbBlocked
        { hallId := 7, fromDate := none, toDate := none }).Pairwise
      (fun a b => a.createdAt ≤ b.createdAt) := by decide

/-- C8 (amended): the Pricing Service list operations return products ordered
primary-first then creation time ascending, rates and addons ordered by
creation time ascending, and blocked dates ordered by start date ascending. -/
theorem pricing_list_orderings :
    (∀ (db : Db) (options : ListHallProductsOptions),
      (listHallProducts db options).Pairwise (fun a b =>
        if a.isPrimary = b.isPrimary then a.createdAt ≤ b.createdAt
        else a.isPrimary = true)) ∧
    (∀ (db : Db) (pid : Nat),
      (listHallProductRates db pid).Pairwise
        (fun a b => a.createdAt ≤ b.createdAt)) ∧
    (∀ (db : Db) (options : ListHallAddonsOptions),
      (listHallAddons db options).Pairwise
        (fun a b => a.createdAt ≤ b.createdAt)) ∧
    (∀ (db : Db) (options : ListHallBlockedDatesOptions),
      (listHallBlockedDates db options).Pairwise
        (fun a b => a.startDate ≤ b.startDate)) := by
  refine ⟨?_, ?_, ?_, ?_⟩
  · intro db options
    unfold listHallProducts
    refine List.Pairwise.map _ ?_
      (pairwise_sortBy productOrder_total productOrder_trans _)
    intro a b hab
    by_cases h : a.isPrimary = b.isPrimary <;>
      simp_all [productOrder, toHallProductDTO]
  · intro db pid
    unfold listHallProductRates
    refine List.Pairwise.map _ ?_
      (pairwise_sortBy rateCreatedAtAsc_total rateCreatedAtAsc_trans _)
    intro a b hab
    simpa [rateCreatedAtAsc, toHallProductRateDTO] using hab
  · intro db options
    unfold listHallAddons
    refine List.Pairwise.map _ ?_
      (pairwise_sortBy addonCreatedAtAsc_total addonCreatedAtAsc_trans _)
    intro a b hab
    simpa [addonCreatedAtAsc, toHallAddonDTO] using hab
  · intro db options
    unfold listHallBlockedDates
    refine List.Pairwise.map _ ?_
      (pairwise_sortBy blockedStartDateAsc_total blockedStartDateAsc_trans _)
    intro a b hab
    simpa [blockedStartDateAsc, toHallBlockedDateDTO] using hab

/-! ## C6: public detail hides non-ACTIVE halls -/

/-- C6: for a hall whose stored slug is canonical (as every slug written by
the service is) and unique, `getPublicHallDetail` on that slug answers
NotFound whenever the hall is not ACTIVE, and returns the database
unchanged. -/
theorem getPublicHallDetail_notFound (db : Db) (h : Hall)
    (hmem : h ∈ db.halls) (hcanon : slugify h.slug = h.slug)
    (hnodup : (hallSlugs db).Nodup) (hstatus : h.status ≠ HallStatus.ACTIVE) :
    getPublicHallDetail db h.slug =
      (Except.error (ApiError.notFound (ofStr "Hall not found")), db) := by
  have hfind : db.halls.find? (fun x => x.slug = slugify h.slug) = some h := by
    rw [hcanon]
    exact find?_key (fun x => x.slug) (by simpa [hallSlugs] using hnodup) hmem rfl
  simp only [getPublicHallDetail, getHallBySlug, hfind]
  simp [Hall.toDTO, hstatus]

/-- Witness for C6: a DRAFT hall's slug yields NotFound. -/
theorem getPublicHallDetail_notFound_witness :
    getPublicHallDetail dbDraft hallDraft.slug =
      (Except.error (ApiError.notFound (ofStr "Hall not found")), dbDraft) :=
  getPublicHallDetail_notFound dbDraft hallDraft (by decide) (by decide)
    (by decide) (by decide)

/-! ## Slugify produces canonical strings (towards C9 and C1) -/

/-- The characters a canonical slug may hold. -/
def charOk (c : Nat) : Prop := isLowerAlnum c = true ∨ c = DASH

/-- Adjacent characters of a canonical slug are never both dashes. -/
def noDoubleDash (x y : Nat) : Prop := ¬(x = DASH ∧ y = DASH)

theorem isLowerAlnum_iff {c : Nat} :
    isLowerAlnum c = true ↔ (97 ≤ c ∧ c ≤ 122) ∨ (48 ≤ c ∧ c ≤ 57) := by
  simp [isLowerAlnum, Bool.or_eq_true, Bool.and_eq_true, decide_eq_true_eq]

theorem alnum_not_dash {c : Nat} (h : isLowerAlnum c = true) : c ≠ DASH := by
  rw [isLowerAlnum_iff] at h
  unfold DASH
  omega

theorem charOk_bounds {c : Nat} (h : charOk c) : c = 45 ∨ (48 ≤ c ∧ c ≤ 57) ∨ (97 ≤ c ∧ c ≤ 122) := by
  rcases h with h | h
  · rw [isLowerAlnum_iff] at h
    tauto
  · exact Or.inl h

theorem jsLowerChar_fixed {c : Nat} (h : charOk c) : jsLowerChar c = c := by
  have hb := charOk_bounds h
  unfold jsLowerChar
  split_ifs with h1 h2
  · simp only [Bool.and_eq_true, decide_eq_true_eq] at h1
    omega
  · simp only [Bool.and_eq_true, decide_eq_true_eq] at h2
    omega
  · rfl

theorem nfdChar_fixed {c : Nat} (h : charOk c) : nfdChar c = [c] := by
  have hb := charOk_bounds h
  have hc : c ≤ 122 := by omega
  unfold nfdChar
  rw [if_neg (by simp only [Bool.and_eq_true, decide_eq_true_eq]; omega),
    if_neg (by omega),
    if_neg (by simp only [Bool.and_eq_true, decide_eq_true_eq]; omega),
    if_neg (by simp only [Bool.and_eq_true, decide_eq_true_eq]; omega),
    if_neg (by omega),
    if_neg (by simp only [Bool.and_eq_true, decide_eq_true_eq]; omega),
    if_neg (by simp only [Bool.and_eq_true, decide_eq_true_eq]; omega),
    if_neg (by omega),
    if_neg (by omega)]

theorem isCombining_false {c : Nat} (h : charOk c) : isCombining c = false := by
  have hb := charOk_bounds h
  apply Bool.eq_false_iff.mpr
  intro hc
  simp only [isCombining, Bool.and_eq_true, decide_eq_true_eq] at hc
  omega

theorem mem_collapseAux {l : List Nat} :
    ∀ {b : Bool} {c : Nat}, c ∈ collapseAux b l → charOk c := by
  induction l with
  | nil =>
    intro b c h
    cases b <;> cases h
  | cons a as ih =>
    intro b c h
    by_cases ha : isLowerAlnum a = true
    · simp only [collapseAux] at h
      rw [if_pos ha] at h
      rcases List.mem_cons.mp h with rfl | h
      · exact Or.inl ha
      · exact ih h
    · simp only [collapseAux] at h
      rw [if_neg ha] at h
      cases b with
      | true =>
        rw [if_pos rfl] at h
        exact ih h
      | false =>
        rw [if_neg (by simp)] at h
        rcases List.mem_cons.mp h with rfl | h
        · exact Or.inr rfl
        · exact ih h

theorem collapseAux_true_head {l : List Nat} :
    ∀ {c : Nat}, (collapseAux true l).head? = some c → isLowerAlnum c = true := by
  induction l with
  | nil =>
    intro c h
    cases h
  | cons a as ih =>
    intro c h
    by_cases ha : isLowerAlnum a = true
    · simp only [collapseAux] at h
      rw [if_pos ha] at h
      cases h
      exact ha
    · simp only [collapseAux] at h
      rw [if_neg ha, if_pos trivial] at h
      exact ih h

theorem chain'_collapseAux (l : List Nat) :
    ∀ b, (collapseAux b l).Chain' noDoubleDash := by
  induction l with
  | nil =>
    intro b
    cases b <;> simp [collapseAux]
  | cons a as ih =>
    intro b
    by_cases ha : isLowerAlnum a = true
    · simp only [collapseAux]
      rw [if_pos ha]
      refine List.chain'_cons'.mpr ⟨?_, ih false⟩
      intro y _
      exact fun hc => alnum_not_dash ha hc.1
    · simp only [collapseAux]
      rw [if_neg ha]
      cases b with
      | true =>
        rw [if_pos rfl]
        exact ih true
      | false =>
        rw [if_neg (by simp)]
        refine List.chain'_cons'.mpr ⟨?_, ih true⟩
        intro y hy
        exact fun hc => alnum_not_dash (collapseAux_true_head hy) hc.2

theorem head?_dropWhile {p : Nat → Bool} :
    ∀ {l : List Nat} {c : Nat}, (l.dropWhile p).head? = some c → p c = false := by
  intro l
  induction l with
  | nil =>
    intro c h
    cases h
  | cons a as ih =>
    intro c h
    rw [List.dropWhile_cons] at h
    by_cases hp : p a = true
    · rw [if_pos hp] at h
      exact ih h
    · rw [if_neg hp] at h
      cases h
      exact Bool.eq_false_iff.mpr hp

theorem dropWhile_eq_self {p : Nat → Bool} {l : List Nat}
    (h : ∀ c, l.head? = some c → p c = false) : l.dropWhile p = l := by
  cases l with
  | nil => rfl
  | cons a as =>
    rw [List.dropWhile_cons, if_neg]
    simp [h a rfl]

theorem dropWhile_suffix_decomp (p : Nat → Bool) (l : List Nat) :
    ∃ t, l = t ++ l.dropWhile p := by
  rcases List.dropWhile_suffix (l := l) p with ⟨t, ht⟩
  exact ⟨t, ht.symm⟩

theorem mem_of_mem_dropWhile {p : Nat → Bool} {l : List Nat} {c : Nat}
    (h : c ∈ l.dropWhile p) : c ∈ l := by
  rcases dropWhile_suffix_decomp p l with ⟨t, ht⟩
  rw [ht]
  exact List.mem_append_right t h

theorem chain'_dropWhile {R : Nat → Nat → Prop} {p : Nat → Bool} {l : List Nat}
    (h : l.Chain' R) : (l.dropWhile p).Chain' R := by
  rcases dropWhile_suffix_decomp p l with ⟨t, ht⟩
  rw [ht] at h
  exact (List.chain'_append.mp h).2.1

theorem mem_trimDashes {l : List Nat} {c : Nat} (h : c ∈ trimDashes l) : c ∈ l := by
  unfold trimDashes at h
  exact mem_of_mem_dropWhile (List.mem_reverse.mp (mem_of_mem_dropWhile (List.mem_reverse.mp h)))

theorem chain'_trimDashes {R : Nat → Nat → Prop} (hsymm : ∀ x y, R x y → R y x)
    {l : List Nat} (h : l.Chain' R) : (trimDashes l).Chain' R := by
  unfold trimDashes
  have flipRev : ∀ {m : List Nat}, m.Chain' R → m.reverse.Chain' R := by
    intro m hm
    exact List.chain'_reverse.mpr (List.Chain'.imp (fun a b hab => hsymm a b hab) hm)
  exact flipRev (chain'_dropWhile (flipRev (chain'_dropWhile h)))

theorem head?_trimDashes {l : List Nat} {c : Nat}
    (h : (trimDashes l).head? = some c) : c ≠ DASH := by
  unfold trimDashes at h
  rw [List.head?_reverse] at h
  rcases dropWhile_suffix_decomp (fun c => c = DASH)
    (l.dropWhile (fun c => c = DASH)).reverse with ⟨t, ht⟩
  have hne : (l.dropWhile (fun c => c = DASH)).reverse.dropWhile (fun c => c = DASH) ≠ [] := by
    intro he
    rw [he] at h
    cases h
  have h2 : (l.dropWhile (fun c => c = DASH)).reverse.getLast? = some c := by
    rw [ht, List.getLast?_append_of_ne_nil _ hne]
    exact h
  rw [List.getLast?_reverse] at h2
  have := head?_dropWhile h2
  simpa using this

theorem getLast?_trimDashes {l : List Nat} {c : Nat}
    (h : (trimDashes l).getLast? = some c) : c ≠ DASH := by
  unfold trimDashes at h
  rw [List.getLast?_reverse] at h
  have := head?_dropWhile h
  simpa using this

theorem collapseAux_id :
    ∀ (l : List Nat) (b : Bool), (∀ c ∈ l, charOk c) → l.Chain' noDoubleDash →
      (b = true → ∀ c, l.head? = some c → c ≠ DASH) → collapseAux b l = l := by
  intro l
  induction l with
  | nil =>
    intro b _ _ _
    cases b <;> rfl
  | cons a as ih =>
    intro b hchars hchain hhead
    by_cases ha : isLowerAlnum a = true
    · simp only [collapseAux]
      rw [if_pos ha]
      rw [ih false (fun c hc => hchars c (List.mem_cons_of_mem a hc)) hchain.tail
        (by intro h; cases h)]
    · have hdash : a = DASH := by
        rcases hchars a (List.mem_cons_self a as) with h | h
        · exact absurd h ha
        · exact h
      cases b with
      | true => exact absurd rfl (fun h => hhead h a rfl hdash)
      | false =>
        simp only [collapseAux]
        rw [if_neg ha, if_neg (by simp)]
        rw [ih true (fun c hc => hchars c (List.mem_cons_of_mem a hc)) hchain.tail ?_]
        · rw [hdash]
        · intro _ c hc hcd
          have := (List.chain'_cons'.mp hchain).1 c hc
          exact this ⟨hdash, hcd⟩

theorem trimDashes_id {l : List Nat}
    (h1 : ∀ c, l.head? = some c → c ≠ DASH)
    (h2 : ∀ c, l.getLast? = some c → c ≠ DASH) : trimDashes l = l := by
  unfold trimDashes
  rw [dropWhile_eq_self (fun c hc => decide_eq_false (h1 c hc))]
  rw [dropWhile_eq_self (fun c hc => decide_eq_false
    (h2 c (by rwa [List.head?_reverse] at hc)))]
  exact List.reverse_reverse l

theorem flatMap_id_of {l : List Nat} {f : Nat → List Nat}
    (h : ∀ c ∈ l, f c = [c]) : l.flatMap f = l := by
  induction l with
  | nil => rfl
  | cons a as ih =>
    rw [List.flatMap_cons, h a (List.mem_cons_self a as),
      ih (fun c hc => h c (List.mem_cons_of_mem a hc))]
    rfl

theorem slugify_chars {s : JStr} {c : Nat} (h : c ∈ slugify s) : charOk c := by
  unfold slugify collapseNonAlnum at h
  exact mem_collapseAux (mem_trimDashes h)

theorem slugify_chain' (s : JStr) : (slugify s).Chain' noDoubleDash := by
  unfold slugify collapseNonAlnum
  exact chain'_trimDashes (fun x y h hc => h ⟨hc.2, hc.1⟩) (chain'_collapseAux _ false)

theorem slugify_head {s : JStr} {c : Nat}
    (h : (slugify s).head? = some c) : c ≠ DASH := head?_trimDashes h

theorem slugify_last {s : JStr} {c : Nat}
    (h : (slugify s).getLast? = some c) : c ≠ DASH := getLast?_trimDashes h

/-- `slugify` is idempotent: its output is already canonical. -/
theorem slugify_idem (s : JStr) : slugify (slugify s) = slugify s := by
  have hchars : ∀ c ∈ slugify s, charOk c := fun c hc => slugify_chars hc
  have e1 : (slugify s).map jsLowerChar = slugify s := by
    rw [List.map_congr_left (fun a ha => jsLowerChar_fixed (hchars a ha))]
    exact List.map_id _
  have e2 : (slugify s).flatMap nfdChar = slugify s :=
    flatMap_id_of (fun c hc => nfdChar_fixed (hchars c hc))
  have e3 : (slugify s).filter (fun c => !isCombining c) = slugify s :=
    List.filter_eq_self.mpr (fun c hc => by rw [isCombining_false (hchars c hc)]; rfl)
  have e4 : collapseAux false (slugify s) = slugify s :=
    collapseAux_id _ false hchars (slugify_chain' s) (by intro h; cases h)
  have e5 : trimDashes (slugify s) = slugify s :=
    trimDashes_id (fun c hc => slugify_head hc) (fun c hc => slugify_last hc)
  calc slugify (slugify s)
      = trimDashes (collapseAux false
          ((((slugify s).map jsLowerChar).flatMap nfdChar).filter
            (fun c => !isCombining c))) := rfl
    _ = slugify s := by rw [e1, e2, e3, e4, e5]

/-! ## C9: slug lookup is insensitive to slugification -/

/-- C9: `getHallBySlug` normalizes its argument with `slugify` before the
lookup, and `slugify` is idempotent, so looking up `s` and looking up
`slugify s` give identical results (hence `getPublicHallDetail` is
insensitive to case, diacritics and separators of the supplied slug). -/
theorem getHallBySlug_slugify_insensitive (db : Db) (s : JStr) :
    getHallBySlug db s = getHallBySlug db (slugify s) := by
  unfold getHallBySlug
  rw [slugify_idem]

/-! ## Slug uniqueness: the suffixing loop terminates and yields fresh slugs -/

theorem slugTaken_none_iff {halls : List Hall} {s : JStr} :
    slugTaken halls none s = true ↔ ∃ h ∈ halls, h.slug = s := by
  simp [slugTaken, List.any_eq_true, decide_eq_true_eq]

theorem slugTaken_none_false_iff {halls : List Hall} {s : JStr} :
    slugTaken halls none s = false ↔ ∀ h ∈ halls, h.slug ≠ s := by
  rw [Bool.eq_false_iff, Ne, slugTaken_none_iff]
  push_neg
  rfl

theorem val_digitsAux : ∀ (fuel n : Nat), n ≤ fuel →
    decVal (digitsAux 10 fuel n) = n := by
  intro fuel
  induction fuel with
  | zero =>
    intro n h
    have : n = 0 := by omega
    subst this
    rfl
  | succ f ih =>
    intro n h
    cases n with
    | zero => rfl
    | succ m =>
      have hdiv : (m + 1) / 10 ≤ f := by omega
      show decVal (((m + 1) % 10) :: digitsAux 10 f ((m + 1) / 10)) = m + 1
      show ((m + 1) % 10) + 10 * decVal (digitsAux 10 f ((m + 1) / 10)) = m + 1
      rw [ih _ hdiv]
      omega

theorem natDecChars_read (n : Nat) :
    decVal (((natDecChars n).reverse).map (fun c => c - 48)) = n := by
  unfold natDecChars
  by_cases h : n = 0
  · subst h
    rfl
  · rw [if_neg h]
    simp only [List.map_reverse, List.reverse_reverse, List.map_map]
    have hcomp : ((fun c => c - 48) ∘ fun d => 48 + d) = (id : Nat → Nat) := by
      funext d
      simp
    rw [hcomp, List.map_id]
    exact val_digitsAux n n (Nat.le_refl n)

theorem natDecChars_inj {a b : Nat} (h : natDecChars a = natDecChars b) : a = b := by
  have ha := natDecChars_read a
  have hb := natDecChars_read b
  rw [h] at ha
  rw [← ha, hb]

theorem natDecChars_ne_nil (n : Nat) : natDecChars n ≠ [] := by
  unfold natDecChars
  by_cases h : n = 0
  · simp [h]
  · rw [if_neg h]
    obtain ⟨m, rfl⟩ : ∃ m, n = m + 1 := ⟨n - 1, by omega⟩
    show (((m + 1) % 10 :: digitsAux 10 m ((m + 1) / 10)).reverse.map _) ≠ []
    simp

theorem slugCandidate_one (b : JStr) : slugCandidate b 1 = b := if_pos rfl

theorem slugCandidate_inj (baseSlug : JStr) {j k : Nat} (hj : 1 ≤ j) (hk : 1 ≤ k)
    (h : slugCandidate baseSlug j = slugCandidate baseSlug k) : j = k := by
  unfold slugCandidate at h
  by_cases hj1 : j = 1 <;> by_cases hk1 : k = 1
  · omega
  · rw [if_pos hj1, if_neg hk1] at h
    have := congrArg List.length h
    simp at this
  · rw [if_neg hj1, if_pos hk1] at h
    have := congrArg List.length h
    simp at this
  · rw [if_neg hj1, if_neg hk1] at h
    have h2 := List.append_cancel_left h
    have h3 : natDecChars j = natDecChars k := by
      injection h2
    exact natDecChars_inj h3

theorem generateUniqueSlugAux_none {halls : List Hall} {excl : Option Nat}
    {baseSlug : JStr} :
    ∀ {fuel counter : Nat},
      generateUniqueSlugAux halls excl baseSlug fuel counter = none →
      ∀ k, counter ≤ k → k < counter + fuel →
        slugTaken halls excl (slugCandidate baseSlug k) = true := by
  intro fuel
  induction fuel with
  | zero =>
    intro counter _ k h1 h2
    omega
  | succ f ih =>
    intro counter h k h1 h2
    simp only [generateUniqueSlugAux] at h
    by_cases ht : slugTaken halls excl (slugCandidate baseSlug counter) = true
    · rw [if_pos ht] at h
      by_cases hkc : k = counter
      · subst hkc
        exact ht
      · exact ih h k (by omega) (by omega)
    · rw [if_neg ht] at h
      cases h

theorem generateUniqueSlugAux_some {halls : List Hall} {excl : Option Nat}
    {baseSlug : JStr} :
    ∀ {fuel counter : Nat} {s : JStr},
      generateUniqueSlugAux halls excl baseSlug fuel counter = some s →
      slugTaken halls excl s = false ∧ ∃ k, counter ≤ k ∧ s = slugCandidate baseSlug k := by
  intro fuel
  induction fuel with
  | zero =>
    intro counter s h
    cases h
  | succ f ih =>
    intro counter s h
    simp only [generateUniqueSlugAux] at h
    by_cases ht : slugTaken halls excl (slugCandidate baseSlug counter) = true
    · rw [if_pos ht] at h
      obtain ⟨hfree, k, hk, hs⟩ := ih h
      exact ⟨hfree, k, by omega, hs⟩
    · rw [if_neg ht] at h
      cases h
      exact ⟨Bool.eq_false_iff.mpr ht, counter, Nat.le_refl _, rfl⟩

theorem slugTaken_mem {halls : List Hall} {excl : Option Nat} {s : JStr}
    (h : slugTaken halls excl s = true) :
    s ∈ (halls.filter (fun x => ∀ e ∈ excl, x.id ≠ e)).map (fun x => x.slug) := by
  simp only [slugTaken, List.any_eq_true, Bool.and_eq_true, decide_eq_true_eq] at h
  obtain ⟨x, hx, hslug, hexcl⟩ := h
  exact List.mem_map.mpr ⟨x, List.mem_filter.mpr ⟨hx, by simpa using hexcl⟩, hslug⟩

theorem generateUniqueSlugAux_isSome (halls : List Hall) (excl : Option Nat)
    (baseSlug : JStr) :
    (generateUniqueSlugAux halls excl baseSlug (halls.length + 1) 1).isSome := by
  by_contra hna
  have hnone := Option.not_isSome_iff_eq_none.mp hna
  have htaken := generateUniqueSlugAux_none hnone
  set L := (List.range' 1 (halls.length + 1)).map (slugCandidate baseSlug) with hL
  have hnodup : L.Nodup := by
    refine (List.nodup_range' 1 (halls.length + 1) 1 (by norm_num)).map_on ?_
    intro x hx y hy hxy
    rw [List.mem_range'_1] at hx hy
    exact slugCandidate_inj baseSlug hx.1 hy.1 hxy
  have hsub : L ⊆ (halls.filter (fun x => ∀ e ∈ excl, x.id ≠ e)).map (fun x => x.slug) := by
    intro s hs
    obtain ⟨k, hk, rfl⟩ := List.mem_map.mp hs
    rw [List.mem_range'_1] at hk
    exact slugTaken_mem (htaken k hk.1 (by omega))
  have hlenL : L.length = halls.length + 1 := by
    rw [hL, List.length_map, List.length_range']
  have hle := (List.subperm_of_subset hnodup hsub).length_le
  rw [hlenL, List.length_map] at hle
  have := List.length_filter_le (fun x => ∀ e ∈ excl, x.id ≠ e) halls
  omega

theorem generateUniqueSlug_eq_some (halls : List Hall) (now : Nat)
    (excl : Option Nat) (base : JStr) :
    generateUniqueSlugAux halls excl
        (if slugify base = [] then generateFallbackBaseSlug now else slugify base)
        (halls.length + 1) 1 = some (generateUniqueSlug halls now excl base) := by
  simp only [generateUniqueSlug]
  obtain ⟨s, hs⟩ := Option.isSome_iff_exists.mp (generateUniqueSlugAux_isSome halls excl
    (if slugify base = [] then generateFallbackBaseSlug now else slugify base))
  rw [hs, Option.getD_some]

theorem generateUniqueSlug_fresh (halls : List Hall) (now : Nat)
    (excl : Option Nat) (base : JStr) :
    slugTaken halls excl (generateUniqueSlug halls now excl base) = false :=
  (generateUniqueSlugAux_some (generateUniqueSlug_eq_some halls now excl base)).1

/-- When the slugified base is itself free, the loop returns it unchanged. -/
theorem generateUniqueSlug_of_fresh (halls : List Hall) (now : Nat) (base : JStr)
    (hB : slugify base ≠ [])
    (h1 : slugTaken halls none (slugify base) = false) :
    generateUniqueSlug halls now none base = slugify base := by
  simp only [generateUniqueSlug, if_neg hB]
  have haux : generateUniqueSlugAux halls none (slugify base) (halls.length + 1) 1 =
      some (slugify base) := by
    simp only [generateUniqueSlugAux, slugCandidate_one, h1]
    simp
  rw [haux, Option.getD_some]

/-- When the slugified base is taken but its `-2` variant is free, the loop
returns the `-2` variant. -/
theorem generateUniqueSlug_of_taken_one (halls : List Hall) (now : Nat) (base : JStr)
    (hB : slugify base ≠ [])
    (htaken : slugTaken halls none (slugify base) = true)
    (hfree : slugTaken halls none (slugify base ++ DASH :: natDecChars 2) = false) :
    generateUniqueSlug halls now none base = slugify base ++ DASH :: natDecChars 2 := by
  simp only [generateUniqueSlug, if_neg hB]
  obtain ⟨x, hx, _⟩ := slugTaken_none_iff.mp htaken
  obtain ⟨m, hm⟩ : ∃ m, halls.length = m + 1 := by
    cases hl : halls with
    | nil =>
      rw [hl] at hx
      cases hx
    | cons a l => exact ⟨l.length, by simp⟩
  have hcand2 : slugCandidate (slugify base) 2 = slugify base ++ DASH :: natDecChars 2 := by
    unfold slugCandidate
    rw [if_neg (by omega)]
  have haux : generateUniqueSlugAux halls none (slugify base) (halls.length + 1) 1 =
      some (slugify base ++ DASH :: natDecChars 2) := by
    rw [hm]
    show generateUniqueSlugAux halls none (slugify base) (m + 1 + 1) 1 = _
    simp only [generateUniqueSlugAux, slugCandidate_one, htaken]
    rw [if_pos trivial]
    show generateUniqueSlugAux halls none (slugify base) (m + 1) 2 = _
    simp only [generateUniqueSlugAux, hcand2, hfree]
    simp
  rw [haux, Option.getD_some]

/-- What one `createHall` call does to the halls table: it appends exactly
one hall, whose owner and status come from the payload and whose slug
conflicts with no existing hall. -/
theorem createHall_spec (db : Db) (p : CreateHallPayload) :
    ∃ hall : Hall,
      (createHall db p).1 = Except.ok hall.toDTO ∧
      (createHall db p).2.halls = db.halls ++ [hall] ∧
      hall.gerantId = p.gerantId ∧
      hall.status = p.status.getD HallStatus.DRAFT ∧
      ∀ h ∈ db.halls, h.slug ≠ hall.slug := by
  simp only [createHall]
  cases p.gerantId with
  | some g =>
    refine ⟨_, rfl, rfl, rfl, rfl, ?_⟩
    intro h hmem he
    exact slugTaken_none_false_iff.mp
      (generateUniqueSlug_fresh db.halls db.now none _) h hmem he
  | none =>
    refine ⟨_, rfl, rfl, rfl, rfl, ?_⟩
    intro h hmem he
    exact slugTaken_none_false_iff.mp
      (generateUniqueSlug_fresh db.halls db.now none _) h hmem he

/-- A `createHall` call with no explicit slug builds its slug from
name + city through `generateUniqueSlug`. -/
theorem createHall_slug_of_no_slug (db : Db) (p : CreateHallPayload)
    (hslug : p.slug = none)
    (htrim : jsTrim (joinNameCity p.name p.city) ≠ [])
    (hjoin : joinNameCity p.name p.city ≠ []) :
    ∃ hall : Hall,
      (createHall db p).1 = Except.ok hall.toDTO ∧
      (createHall db p).2.halls = db.halls ++ [hall] ∧
      hall.slug = generateUniqueSlug db.halls db.now none (joinNameCity p.name p.city) := by
  simp only [createHall, hslug, ne_eq, eq_self_iff_true, not_true, if_false]
  rw [if_pos ⟨hjoin, htrim⟩]
  cases p.gerantId with
  | some g => exact ⟨_, rfl, rfl, rfl⟩
  | none => exact ⟨_, rfl, rfl, rfl⟩

/-! ## C1: slug uniqueness of hall creation -/

/-- C1: every hall creation yields a slug distinct from the slug of every
existing hall; two sequential creations yield distinct slugs; and two
creations with identical name and city, no explicit slug, and no previously
conflicting hall receive the slugified base and then its `-2` variant. -/
theorem createHall_slug_unique (db : Db) (p : CreateHallPayload)
    (hslug : p.slug = none)
    (htrim : jsTrim (joinNameCity p.name p.city) ≠ [])
    (hB : slugify (joinNameCity p.name p.city) ≠ [])
    (h1 : slugify (joinNameCity p.name p.city) ∉ hallSlugs db)
    (h2 : slugify (joinNameCity p.name p.city) ++ DASH :: natDecChars 2 ∉ hallSlugs db) :
    (∀ (db0 : Db) (q : CreateHallPayload), ∃ dto,
      (createHall db0 q).1 = Except.ok dto ∧ dto.slug ∉ hallSlugs db0) ∧
    (∀ (db0 : Db) (q r : CreateHallPayload), ∃ dto1 dto2,
      (createHall db0 q).1 = Except.ok dto1 ∧
      (createHall (createHall db0 q).2 r).1 = Except.ok dto2 ∧
      dto1.slug ≠ dto2.slug) ∧
    (∃ dto1 dto2,
      (createHall db p).1 = Except.ok dto1 ∧
      (createHall (createHall db p).2 p).1 = Except.ok dto2 ∧
      dto1.slug = slugify (joinNameCity p.name p.city) ∧
      dto2.slug = slugify (joinNameCity p.name p.city) ++ DASH :: natDecChars 2 ∧
      dto1.slug ≠ dto2.slug) := by
  have hfresh : ∀ (db0 : Db) (q : CreateHallPayload), ∃ dto,
      (createHall db0 q).1 = Except.ok dto ∧ dto.slug ∉ hallSlugs db0 := by
    intro db0 q
    obtain ⟨hall, hok, _, _, _, hf⟩ := createHall_spec db0 q
    refine ⟨hall.toDTO, hok, ?_⟩
    intro hmem
    obtain ⟨h, hh, he⟩ := List.mem_map.mp hmem
    exact hf h hh (by simpa [Hall.toDTO] using he)
  have hjoin : joinNameCity p.name p.city ≠ [] := by
    intro he
    rw [he] at hB
    exact hB rfl
  have hlen2 : ∀ (b : JStr), b ≠ b ++ DASH :: natDecChars 2 := by
    intro b he
    have := congrArg List.length he
    simp at this
  refine ⟨hfresh, ?_, ?_⟩
  · intro db0 q r
    obtain ⟨hall1, hok1, hh1, _, _, _⟩ := createHall_spec db0 q
    obtain ⟨hall2, hok2, _, _, _, hf2⟩ := createHall_spec (createHall db0 q).2 r
    refine ⟨hall1.toDTO, hall2.toDTO, hok1, hok2, ?_⟩
    intro he
    simp only [Hall.toDTO] at he
    exact hf2 hall1 (by rw [hh1]; exact List.mem_append_right _ (List.mem_cons_self _ _)) he
  · obtain ⟨hall1, hok1, hh1, hs1⟩ := createHall_slug_of_no_slug db p hslug htrim hjoin
    have hs1B : hall1.slug = slugify (joinNameCity p.name p.city) := by
      rw [hs1]
      exact generateUniqueSlug_of_fresh db.halls db.now _ hB
        (slugTaken_none_false_iff.mpr
          (fun h hh he => h1 (he ▸ List.mem_map_of_mem (fun x => x.slug) hh)))
    obtain ⟨hall2, hok2, _, hs2⟩ := createHall_slug_of_no_slug (createHall db p).2 p
      hslug htrim hjoin
    have htaken : slugTaken (createHall db p).2.halls none
        (slugify (joinNameCity p.name p.city)) = true := by
      apply slugTaken_none_iff.mpr
      refine ⟨hall1, ?_, hs1B⟩
      rw [hh1]
      exact List.mem_append_right _ (List.mem_cons_self _ _)
    have hfree2 : slugTaken (createHall db p).2.halls none
        (slugify (joinNameCity p.name p.city) ++ DASH :: natDecChars 2) = false := by
      apply slugTaken_none_false_iff.mpr
      intro h hh he
      rw [hh1] at hh
      rcases List.mem_append.mp hh with hh | hh
      · exact h2 (he ▸ List.mem_map_of_mem (fun x => x.slug) hh)
      · rcases List.mem_singleton.mp hh with rfl
        rw [hs1B] at he
        exact hlen2 _ he
    have hs2B : hall2.slug =
        slugify (joinNameCity p.name p.city) ++ DASH :: natDecChars 2 := by
      rw [hs2]
      exact generateUniqueSlug_of_taken_one _ _ _ hB htaken hfree2
    refine ⟨hall1.toDTO, hall2.toDTO, hok1, hok2, by simpa [Hall.toDTO] using hs1B,
      by simpa [Hall.toDTO] using hs2B, ?_⟩
    simp only [Hall.toDTO]
    rw [hs1B, hs2B]
    exact hlen2 _

/-- Witness for C1 at the Lakeview/Kinshasa example over the empty database:
the two creations produce `lakeview-kinshasa` and `lakeview-kinshasa-2`. -/
theorem createHall_slug_unique_witness :
    (∃ dto, (createHall emptyDb pLakeview).1 = Except.ok dto ∧
      dto.slug ∉ hallSlugs emptyDb) ∧
    (∃ dto1 dto2,
      (createHall emptyDb pLakeview).1 = Except.ok dto1 ∧
      (createHall (createHall emptyDb pLakeview).2 pLakeview).1 = Except.ok dto2 ∧
      dto1.slug = slugify (joinNameCity pLakeview.name pLakeview.city) ∧
      dto2.slug = slugify (joinNameCity pLakeview.name pLakeview.city) ++
        DASH :: natDecChars 2 ∧
      dto1.slug ≠ dto2.slug) := by
  have h := createHall_slug_unique emptyDb pLakeview rfl (by decide) (by decide)
    (by decide) (by decide)
  exact ⟨h.1 emptyDb pLakeview, h.2.2⟩

/-- The new-hall shape of `createHall`, positioned to unify with goals that
mention the enclosing database update. -/
theorem createHall_new_hall (d : Db) (q : CreateHallPayload) :
    ∃ nh : Hall, (createHall d q).2.halls = d.halls ++ [nh] ∧
      nh.status = q.status.getD HallStatus.DRAFT ∧ nh.gerantId = q.gerantId := by
  obtain ⟨hall, _, hh, hg, hs, _⟩ := createHall_spec d q
  exact ⟨hall, hh, hs, hg⟩

/-! ## C3: approving a host application creates one DRAFT hall -/

/-- C3: a transition into APPROVED from a non-APPROVED status creates exactly
one new hall, DRAFT, owned by the applicant, when an applicant user id is
present; with no applicant the halls table is unchanged. -/
theorem updateHostApplicationStatus_approve (db : Db) (app : HostApplication)
    (payload : UpdateHostApplicationStatusPayload)
    (hmem : app ∈ db.hostApplications)
    (hnodup : (db.hostApplications.map (fun a => a.id)).Nodup)
    (hprev : app.status ≠ HostApplicationStatus.APPROVED)
    (hst : payload.status = HostApplicationStatus.APPROVED) :
    (∀ u, app.applicantUserId = some u → ∃ newHall : Hall,
      (updateHostApplicationStatus db app.id payload).2.halls = db.halls ++ [newHall] ∧
      newHall.status = HallStatus.DRAFT ∧ newHall.gerantId = some u) ∧
    (app.applicantUserId = none →
      (updateHostApplicationStatus db app.id payload).2.halls = db.halls) := by
  have hfind : db.hostApplications.find? (fun a => a.id = app.id) = some app :=
    find?_key (fun a => a.id) hnodup hmem rfl
  constructor
  · intro u hu
    simp only [updateHostApplicationStatus, hfind]
    rw [if_pos ⟨hprev, hst⟩]
    simp only [hu]
    exact createHall_new_hall _ _
  · intro hnone
    simp only [updateHostApplicationStatus, hfind]
    rw [if_pos ⟨hprev, hst⟩]
    simp only [hnone]

/-- Witness for C3: approving the sample NEW application with applicant 77
adds one DRAFT hall owned by 77. -/
theorem updateHostApplicationStatus_approve_witness :
    ∃ newHall : Hall,
      (updateHostApplicationStatus dbApp 31
        { status := HostApplicationStatus.APPROVED, adminNotes := none
          reviewedByUserId := some 9 }).2.halls = dbApp.halls ++ [newHall] ∧
      newHall.status = HallStatus.DRAFT ∧ newHall.gerantId = some 77 := by
  have h := updateHostApplicationStatus_approve dbApp appRosa
    { status := HostApplicationStatus.APPROVED, adminNotes := none
      reviewedByUserId := some 9 }
    (by decide) (by decide) (by decide) rfl
  exact h.1 77 rfl

/-! ## C2: owner swap leaves exactly one OWNER row -/

theorem filter_owner_after_delete (l : List HallUserRole) (i : Nat) :
    (l.filter (fun r => ¬(r.hallId = i ∧ r.role = HallUserRoleType.OWNER))).filter
      (fun r => r.hallId = i ∧ r.role = HallUserRoleType.OWNER) = [] := by
  rw [List.filter_eq_nil_iff]
  intro r hr
  have h2 := (List.mem_filter.mp hr).2
  simp only [decide_eq_true_eq] at h2 ⊢
  exact h2

/-- C2: updating a hall's `gerantId` from A to a different non-null B leaves
exactly one OWNER role row for that hall, and it points to B; the returned
hall carries `gerantId = B`. -/
theorem updateHall_owner_swap (db : Db) (hall : Hall) (payload : UpdateHallPayload)
    (b : Nat)
    (hmem : hall ∈ db.halls)
    (hnodup : (db.halls.map (fun h => h.id)).Nodup)
    (hg : payload.gerantId = some (some b))
    (hne : (some b : Option Nat) ≠ hall.gerantId) :
    (∃ r : HallUserRole,
      ownerRolesFor (updateHall db hall.id payload).2 hall.id = [r] ∧ r.userId = b) ∧
    (∃ dto, (updateHall db hall.id payload).1 = Except.ok dto ∧
      dto.gerantId = some b) := by
  have hfind : db.halls.find? (fun h => h.id = hall.id) = some hall :=
    find?_key (fun h => h.id) hnodup hmem rfl
  constructor
  · refine ⟨{ id := db.nextId, hallId := hall.id, userId := b
              role := HallUserRoleType.OWNER, created_at := db.now + 1 }, ?_, rfl⟩
    simp only [updateHall, hfind, hg]
    rw [if_pos hne]
    simp only [ownerRolesFor, List.filter_append, filter_owner_after_delete,
      List.nil_append, List.filter_cons, List.filter_nil]
    simp
  · simp only [updateHall, hfind, hg]
    rw [if_pos hne]
    exact ⟨_, rfl, by simp [Hall.toDTO]⟩

/-- Witness for C2: swapping the DRAFT sample hall's owner to user 5 leaves
one OWNER row for user 5. -/
theorem updateHall_owner_swap_witness :
    (∃ r : HallUserRole,
      ownerRolesFor (updateHall dbDraft hallDraft.id
        { name := none, slug := none, address := none, city := none
          capacity := none, description := none, cancellationPolicy := none
          isPremium := none, status := none, gerantId := some (some 5) }).2
        hallDraft.id = [r] ∧ r.userId = 5) ∧
    (∃ dto, (updateHall dbDraft hallDraft.id
        { name := none, slug := none, address := none, city := none
          capacity := none, description := none, cancellationPolicy := none
          isPremium := none, status := none, gerantId := some (some 5) }).1 =
      Except.ok dto ∧ dto.gerantId = some 5) :=
  updateHall_owner_swap dbDraft hallDraft _ 5 (by decide) (by decide) rfl (by decide)

/-! ## C10: an update without gerantId touches neither owner nor roles -/

/-- C10: when the update payload leaves `gerantId` undefined, the entire
role table is unchanged, the returned DTO keeps the previous owner, and the
stored hall keeps its `gerantId`, whatever other fields change. -/
theorem updateHall_gerant_frame (db : Db) (hall : Hall) (payload : UpdateHallPayload)
    (hmem : hall ∈ db.halls)
    (hnodup : (db.halls.map (fun h => h.id)).Nodup)
    (hg : payload.gerantId = none) :
    (updateHall db hall.id payload).2.hallUserRoles = db.hallUserRoles ∧
    (∃ dto, (updateHall db hall.id payload).1 = Except.ok dto ∧
      dto.gerantId = hall.gerantId) ∧
    (∀ h ∈ (updateHall db hall.id payload).2.halls,
      h.id = hall.id → h.gerantId = hall.gerantId) := by
  have hfind : db.halls.find? (fun h => h.id = hall.id) = some hall :=
    find?_key (fun h => h.id) hnodup hmem rfl
  have hall1_gerant : ∀ s : Option JStr,
      (match s with
        | some sl =>
          if sl ≠ [] ∧ jsTrim sl ≠ [] ∧ jsLowerStr (jsTrim sl) ≠ hall.slug then
            { hall with slug := generateUniqueSlug db.halls db.now (some hall.id) sl }
          else hall
        | none => hall).gerantId = hall.gerantId := by
    intro s
    rcases s with _ | sl
    · rfl
    · show (if sl ≠ [] ∧ jsTrim sl ≠ [] ∧ jsLowerStr (jsTrim sl) ≠ hall.slug then
          { hall with slug := generateUniqueSlug db.halls db.now (some hall.id) sl }
        else hall).gerantId = hall.gerantId
      split <;> rfl
  refine ⟨?_, ?_, ?_⟩
  · simp only [updateHall, hfind, hg]
  · simp only [updateHall, hfind, hg]
    exact ⟨_, rfl, by simp [Hall.toDTO, hall1_gerant payload.slug]⟩
  · intro h hmem2 hid
    simp only [updateHall, hfind, hg] at hmem2
    obtain ⟨x, hx, hxe⟩ := List.mem_map.mp hmem2
    by_cases hxi : x.id = hall.id
    · rw [if_pos hxi] at hxe
      rw [← hxe]
      simpa using hall1_gerant payload.slug
    · rw [if_neg hxi] at hxe
      rw [← hxe] at hid
      exact absurd hid hxi

/-- Witness for C10: updating only the city leaves roles and owner alone. -/
theorem updateHall_gerant_frame_witness :
    (updateHall dbDraft hallDraft.id
      { name := none, slug := none, address := none, city := some (ofStr "Goma")
        capacity := none, description := none, cancellationPolicy := none
        isPremium := none, status := none, gerantId := none }).2.hallUserRoles =
      dbDraft.hallUserRoles ∧
    (∃ dto, (updateHall dbDraft hallDraft.id
      { name := none, slug := none, address := none, city := some (ofStr "Goma")
        capacity := none, description := none, cancellationPolicy := none
        isPremium := none, status := none, gerantId := none }).1 =
      Except.ok dto ∧ dto.gerantId = hallDraft.gerantId) ∧
    (∀ h ∈ (updateHall dbDraft hallDraft.id
      { name := none, slug := none, address := none, city := some (ofStr "Goma")
        capacity := none, description := none, cancellationPolicy := none
        isPremium := none, status := none, gerantId := none }).2.halls,
      h.id = hallDraft.id → h.gerantId = hallDraft.gerantId) :=
  updateHall_gerant_frame dbDraft hallDraft _ (by decide) (by decide) rfl

/-! ## C5: one primary media tag per hall and tag type -/

theorem filter_map_eq {α : Type} (f : α → α) (p : α → Bool) (l : List α)
    (h : ∀ x ∈ l, f x = x ∨ (p x = false ∧ p (f x) = false)) :
    (l.map f).filter p = l.filter p := by
  induction l with
  | nil => rfl
  | cons a as ih =>
    rw [List.map_cons]
    rcases h a (List.mem_cons_self a as) with hfa | ⟨hpa, hpfa⟩
    · rw [hfa]
      by_cases hp : p a = true
      · rw [List.filter_cons_of_pos hp, List.filter_cons_of_pos hp,
          ih (fun x hx => h x (List.mem_cons_of_mem a hx))]
      · rw [List.filter_cons_of_neg hp, List.filter_cons_of_neg hp,
          ih (fun x hx => h x (List.mem_cons_of_mem a hx))]
    · rw [List.filter_cons_of_neg (by simp [hpfa]), List.filter_cons_of_neg (by simp [hpa]),
        ih (fun x hx => h x (List.mem_cons_of_mem a hx))]

/-- The hall a tag resolves to through its media row is unique when media
primary keys are unique. -/
theorem hallMatch_unique {db : Db} {mid H H0 : Nat}
    (hnodupM : (db.media.map (fun x => x.id)).Nodup)
    (h1 : db.media.any (fun x => x.id = mid ∧ x.hallId = H) = true)
    (h2 : db.media.any (fun x => x.id = mid ∧ x.hallId = H0) = true) : H = H0 := by
  simp only [List.any_eq_true, Bool.and_eq_true, decide_eq_true_eq] at h1 h2
  obtain ⟨x, hx, hxid, hxH⟩ := h1
  obtain ⟨y, hy, hyid, hyH⟩ := h2
  have : x = y := List.inj_on_of_nodup_map hnodupM hx hy (by rw [hxid, hyid])
  rw [← hxH, ← hyH, this]

theorem mem_any_hall {db : Db} {m : Media} (hm : m ∈ db.media) :
    db.media.any (fun x => x.id = m.id ∧ x.hallId = m.hallId) = true := by
  simp only [List.any_eq_true, Bool.and_eq_true, decide_eq_true_eq]
  exact ⟨m, hm, rfl, rfl⟩

/-- After the unset pass, no primary of the targeted (hall, tag type) pair
remains. -/
theorem unset_clears (db : Db) (H0 T0 : Nat) :
    primaryTagsFor (unsetExistingPrimaryForHallAndTagType db H0 T0) H0 T0 = [] := by
  unfold primaryTagsFor unsetExistingPrimaryForHallAndTagType
  rw [List.filter_eq_nil_iff]
  intro y hy
  obtain ⟨x, _, rfl⟩ := List.mem_map.mp hy
  by_cases hc : (db.media.any (fun m => m.id = x.mediaId ∧ m.hallId = H0) = true) ∧
      x.tagTypeId = T0 ∧ x.isPrimary = true
  · rw [if_pos hc]
    intro h
    exact Bool.false_ne_true (of_decide_eq_true h).1
  · rw [if_neg hc]
    intro h
    obtain ⟨hprim, hty, hmatch⟩ := of_decide_eq_true h
    exact hc ⟨hmatch, hty, hprim⟩

/-- The unset pass for one (hall, tag type) pair leaves the primaries of
every other pair untouched. -/
theorem unset_other {db : Db} {H0 T0 H T : Nat}
    (hnodupM : (db.media.map (fun x => x.id)).Nodup)
    (hne : ¬(H = H0 ∧ T = T0)) :
    primaryTagsFor (unsetExistingPrimaryForHallAndTagType db H0 T0) H T =
      primaryTagsFor db H T := by
  unfold primaryTagsFor unsetExistingPrimaryForHallAndTagType
  apply filter_map_eq
  intro x _
  by_cases hc : (db.media.any (fun m => m.id = x.mediaId ∧ m.hallId = H0) = true) ∧
      x.tagTypeId = T0 ∧ x.isPrimary = true
  · right
    rw [if_pos hc]
    constructor
    · apply Bool.eq_false_iff.mpr
      intro hx
      simp only [decide_eq_true_eq] at hx
      rcases hx with ⟨_, hty, hmatch⟩
      exact hne ⟨hallMatch_unique hnodupM hmatch hc.1, by rw [← hty]; exact hc.2.1⟩
    · apply Bool.eq_false_iff.mpr
      intro hx
      simp only [decide_eq_true_eq] at hx
      exact absurd hx.1 (by simp)
  · left
    rw [if_neg hc]

end Zalna


namespace Zalna

theorem ite_cond_true {α : Sort _} (a b : α) :
    (if (true : Bool) = true then a else b) = a := if_pos rfl

theorem ite_cond_false {α : Sort _} (a b : α) :
    (if (false : Bool) = true then a else b) = b := if_neg (by simp)

theorem unset_media (db : Db) (H T : Nat) :
    (unsetExistingPrimaryForHallAndTagType db H T).media = db.media := rfl

theorem unset_tagTypes (db : Db) (H T : Nat) :
    (unsetExistingPrimaryForHallAndTagType db H T).mediaTagTypes = db.mediaTagTypes := rfl

theorem primaryTagsFor_insert (db2 : Db) (t : MediaTag) (nid nnow : Nat) (H T : Nat) :
    primaryTagsFor { db2 with mediaTags := db2.mediaTags ++ [t]
                              nextId := nid, now := nnow } H T =
      primaryTagsFor db2 H T ++ List.filter (fun x => x.isPrimary ∧ x.tagTypeId = T ∧
        db2.media.any (fun m => m.id = x.mediaId ∧ m.hallId = H)) [t] := by
  unfold primaryTagsFor
  rw [List.filter_append]

/-- Core of the isPrimary = true path of `tagMediaByName`: unset then insert
keeps at most one primary per (hall, tag type). -/
theorem tagPrimary_core (db1 : Db) {db2 : Db} (m : Media) (ttid : Nat)
    (hdb2 : db2 = unsetExistingPrimaryForHallAndTagType db1 m.hallId ttid)
    (hm : m ∈ db1.media) (hnodup : (db1.media.map (fun x => x.id)).Nodup)
    (hInv1 : mediaPrimaryInvariant db1) (H T : Nat) :
    (primaryTagsFor
      { db2 with
        mediaTags := db2.mediaTags ++
          [{ id := db2.nextId, mediaId := m.id, tagTypeId := ttid, isPrimary := true
             createdAt := db2.now }]
        nextId := db2.nextId + 1, now := db2.now + 1 } H T).length ≤ 1 := by
  subst hdb2
  rw [primaryTagsFor_insert]
  by_cases hHT : H = m.hallId ∧ T = ttid
  · obtain ⟨rfl, rfl⟩ := hHT
    rw [unset_clears, List.nil_append]
    exact le_trans (List.length_filter_le _ _) (by simp)
  · rw [unset_other hnodup hHT]
    rw [List.filter_cons_of_neg ?hneg]
    case hneg =>
      intro hx
      obtain ⟨_, hty2, hmatch⟩ := of_decide_eq_true hx
      exact hHT ⟨hallMatch_unique hnodup hmatch (mem_any_hall hm), hty2.symm⟩
    rw [List.filter_nil, List.append_nil]
    exact hInv1 H T

/-- Core of the isPrimary = false path of `tagMediaByName`: inserting a
non-primary tag changes no primary set. -/
theorem tagNonPrimary_core (db1 : Db) (mid ttid : Nat)
    (hInv1 : mediaPrimaryInvariant db1) (H T : Nat) :
    (primaryTagsFor
      { db1 with
        mediaTags := db1.mediaTags ++
          [{ id := db1.nextId, mediaId := mid, tagTypeId := ttid, isPrimary := false
             createdAt := db1.now }]
        nextId := db1.nextId + 1, now := db1.now + 1 } H T).length ≤ 1 := by
  rw [primaryTagsFor_insert]
  rw [List.filter_cons_of_neg (fun hx => Bool.false_ne_true (of_decide_eq_true hx).1)]
  rw [List.filter_nil, List.append_nil]
  exact hInv1 H T


/-- `tagMediaByName` never touches the media table. -/
theorem tagMediaByName_media (db : Db) (o : TagMediaOptions) :
    ((tagMediaByName db o).2).media = db.media := by
  simp only [tagMediaByName, findOrCreateTagTypeByName]
  split
  · rfl
  · split
    · split <;> rfl
    · split <;> rfl

/-- A `tagMediaByName` call with `isPrimary = true` leaves its new tag as the
sole primary of the targeted (hall, tag type) pair, appended last. -/
theorem tagMediaByName_primary_result (db : Db) (m : Media) (tn : JStr)
    (hfind : db.media.find? (fun x => x.id = m.id) = some m) :
    ∃ T t2, t2.mediaId = m.id ∧ t2.tagTypeId = T ∧ t2.isPrimary = true ∧
      primaryTagsFor (tagMediaByName db
        { mediaId := m.id, tagName := tn, isPrimary := some true }).2
        m.hallId T = [t2] ∧
      ((tagMediaByName db
        { mediaId := m.id, tagName := tn, isPrimary := some true }).2).mediaTags.getLast?
        = some t2 := by
  have hm : m ∈ db.media := List.mem_of_find?_eq_some hfind
  simp only [tagMediaByName, findOrCreateTagTypeByName, hfind, Option.getD_some]
  cases hty : db.mediaTagTypes.find?
      (fun t => jsLowerStr t.name = jsLowerStr (jsTrim tn)) with
  | some tt =>
    simp only [if_true]
    refine ⟨tt.id, _, rfl, rfl, rfl, ?_, List.getLast?_concat _⟩
    rw [primaryTagsFor_insert, unset_clears, List.nil_append]
    rw [List.filter_cons_of_pos ?hpos, List.filter_nil]
    case hpos =>
      simp only [unset_media, Bool.and_eq_true, decide_eq_true_eq, true_and]
      exact mem_any_hall hm
  | none =>
    simp only [if_true]
    refine ⟨db.nextId, _, rfl, rfl, rfl, ?_, List.getLast?_concat _⟩
    rw [primaryTagsFor_insert, unset_clears, List.nil_append]
    rw [List.filter_cons_of_pos ?hpos, List.filter_nil]
    case hpos =>
      simp only [unset_media, Bool.and_eq_true, decide_eq_true_eq, true_and]
      exact mem_any_hall hm

theorem tagMediaByName_invariant_half (db : Db)
    (hnodupM : (db.media.map (fun x => x.id)).Nodup)
    (options : TagMediaOptions) (hInv : mediaPrimaryInvariant db) :
    mediaPrimaryInvariant (tagMediaByName db options).2 := by
  cases hfind : db.media.find? (fun m => m.id = options.mediaId) with
  | none =>
    simp only [tagMediaByName, hfind]
    exact hInv
  | some m =>
    have hm : m ∈ db.media := List.mem_of_find?_eq_some hfind
    simp only [tagMediaByName, findOrCreateTagTypeByName, hfind]
    cases hty : db.mediaTagTypes.find?
        (fun t => jsLowerStr t.name = jsLowerStr (jsTrim options.tagName)) with
    | some tt =>
      simp only
      cases hb : options.isPrimary.getD false with
      | false =>
        intro H T
        simp only [ite_cond_false]
        exact tagNonPrimary_core db m.id tt.id hInv H T
      | true =>
        intro H T
        simp only [ite_cond_true, if_true]
        exact tagPrimary_core db m tt.id rfl hm hnodupM hInv H T
    | none =>
      simp only
      cases hb : options.isPrimary.getD false with
      | false =>
        intro H T
        simp only [ite_cond_false]
        exact tagNonPrimary_core
          { db with
            mediaTagTypes := db.mediaTagTypes ++
              [{ id := db.nextId, name := jsTrim options.tagName, description := none
                 createdAt := db.now }]
            nextId := db.nextId + 1, now := db.now + 1 }
          m.id db.nextId hInv H T
      | true =>
        intro H T
        simp only [ite_cond_true, if_true]
        exact tagPrimary_core
          { db with
            mediaTagTypes := db.mediaTagTypes ++
              [{ id := db.nextId, name := jsTrim options.tagName, description := none
                 createdAt := db.now }]
            nextId := db.nextId + 1, now := db.now + 1 }
          m db.nextId rfl hm hnodupM hInv H T

/-- C5: after two sequential `tagMediaByName` calls with `isPrimary = true` on
two different media of the same hall and the same tag name, exactly one media
tag of the resolved tag type is primary for that hall — the tag created by the
second call, appended last — and every `tagMediaByName` call preserves the
at-most-one-primary invariant per (hall, tag type). -/
theorem tagMediaByName_primary_unique (db : Db)
    (hnodupM : (db.media.map (fun x => x.id)).Nodup)
    (m1 m2 : Media) (tn : JStr)
    (hfind1 : db.media.find? (fun x => x.id = m1.id) = some m1)
    (hfind2 : db.media.find? (fun x => x.id = m2.id) = some m2)
    (hhall : m2.hallId = m1.hallId) (hne : m1.id ≠ m2.id)
    (hInv : mediaPrimaryInvariant db) :
    (∃ T t2, t2.mediaId = m2.id ∧ t2.tagTypeId = T ∧ t2.isPrimary = true ∧
      primaryTagsFor (tagMediaByName (tagMediaByName db
          { mediaId := m1.id, tagName := tn, isPrimary := some true }).2
          { mediaId := m2.id, tagName := tn, isPrimary := some true }).2
        m1.hallId T = [t2] ∧
      ((tagMediaByName (tagMediaByName db
          { mediaId := m1.id, tagName := tn, isPrimary := some true }).2
          { mediaId := m2.id, tagName := tn, isPrimary := some true }).2).mediaTags.getLast?
        = some t2) ∧
    (∀ options, mediaPrimaryInvariant (tagMediaByName db options).2) := by
  refine ⟨?_, fun options => tagMediaByName_invariant_half db hnodupM options hInv⟩
  rw [← hhall]
  exact tagMediaByName_primary_result _ m2 tn
    (by rw [tagMediaByName_media]; exact hfind2)

/-- Concrete instance of the C5 theorem: two media of hall 7, tag name HERO. -/
theorem tagMediaByName_primary_unique_witness :
    (dbMedia.media.map (fun x => x.id)).Nodup ∧
    dbMedia.media.find? (fun x => x.id = mediaOne.id) = some mediaOne ∧
    dbMedia.media.find? (fun x => x.id = mediaTwo.id) = some mediaTwo ∧
    mediaTwo.hallId = mediaOne.hallId ∧ mediaOne.id ≠ mediaTwo.id ∧
    mediaPrimaryInvariant dbMedia ∧
    ((∃ T t2, t2.mediaId = mediaTwo.id ∧ t2.tagTypeId = T ∧ t2.isPrimary = true ∧
      primaryTagsFor (tagMediaByName (tagMediaByName dbMedia
          { mediaId := mediaOne.id, tagName := ofStr "HERO", isPrimary := some true }).2
          { mediaId := mediaTwo.id, tagName := ofStr "HERO", isPrimary := some true }).2
        mediaOne.hallId T = [t2] ∧
      ((tagMediaByName (tagMediaByName dbMedia
          { mediaId := mediaOne.id, tagName := ofStr "HERO", isPrimary := some true }).2
          { mediaId := mediaTwo.id, tagName := ofStr "HERO", isPrimary := some true }).2).mediaTags.getLast?
        = some t2) ∧
    (∀ options, mediaPrimaryInvariant (tagMediaByName dbMedia options).2)) :=
  ⟨by decide, by decide, by decide, by decide, by decide, fun H T => Nat.zero_le 1,
    tagMediaByName_primary_unique dbMedia (by decide) mediaOne mediaTwo
      (ofStr "HERO") (by decide) (by decide) (by decide) (by decide)
      (fun H T => Nat.zero_le 1)⟩

end Zalna

namespace Zalna

/-- The search filters of a price-range query: only `priceMin`, `priceMax`,
`sortBy = price_asc` and a `limit` are present. -/
def priceFilters (pmin pmax L : Int) : HallSearchFilters :=
  { q := none, city := none, eventType := none, date := none
    capacityMin := none, capacityMax := none
    priceMin := some pmin, priceMax := some pmax
    isPremium := none, features := none, sortBy := some HallSortBy.price_asc
    page := none, limit := some L }

/-- Every join row of a hall carries that hall. -/
theorem hallJoinRows_hall (db : Db) (h : Hall) :
    ∀ r ∈ hallJoinRows db h, r.hall = h := by
  intro r hr
  simp only [hallJoinRows] at hr
  by_cases hp : db.hallProducts.filter (fun p => p.hallId = h.id ∧ p.isActive) = []
  · rw [if_pos hp] at hr
    rcases List.mem_singleton.mp hr with rfl
    rfl
  · rw [if_neg hp] at hr
    rcases List.mem_flatMap.mp hr with ⟨p, hpmem, hin⟩
    by_cases hrs : db.hallProductRates.filter (fun x => x.hallProductId = p.id) = []
    · rw [if_pos hrs] at hin
      rcases List.mem_singleton.mp hin with rfl
      rfl
    · rw [if_neg hrs] at hin
      rcases List.mem_map.mp hin with ⟨rr, _, rfl⟩
      rfl

/-- A LEFT JOIN never loses the hall: its join rows are never empty. -/
theorem hallJoinRows_ne_nil (db : Db) (h : Hall) : hallJoinRows db h ≠ [] := by
  simp only [hallJoinRows]
  by_cases hp : db.hallProducts.filter (fun p => p.hallId = h.id ∧ p.isActive) = []
  · rw [if_pos hp]
    exact List.cons_ne_nil _ _
  · rw [if_neg hp]
    intro hemp
    rcases List.exists_mem_of_ne_nil _ hp with ⟨p, hpmem⟩
    have hp2 := List.flatMap_eq_nil_iff.mp hemp p hpmem
    by_cases hrs : db.hallProductRates.filter (fun x => x.hallProductId = p.id) = []
    · rw [if_pos hrs] at hp2
      exact List.cons_ne_nil _ _ hp2
    · rw [if_neg hrs] at hp2
      exact hrs (List.map_eq_nil_iff.mp hp2)

/-- Under price-only filters the WHERE clause keeps exactly the ACTIVE rows. -/
theorem rowWhere_priceFilters (db : Db) (pmin pmax L : Int) (row : QueryRow) :
    rowWhere db (priceFilters pmin pmax L) row =
      decide (row.hall.status = HallStatus.ACTIVE) := by
  simp [rowWhere, priceFilters]

/-- Under price-only filters, a hall's join rows survive the WHERE clause
in full when the hall is ACTIVE and not at all otherwise. -/
theorem filter_rowWhere_priceFilters (db : Db) (pmin pmax L : Int) (h : Hall) :
    (hallJoinRows db h).filter (rowWhere db (priceFilters pmin pmax L)) =
      if h.status = HallStatus.ACTIVE then hallJoinRows db h else [] := by
  by_cases hs : h.status = HallStatus.ACTIVE
  · rw [if_pos hs]
    apply List.filter_eq_self.mpr
    intro r hr
    rw [rowWhere_priceFilters, hallJoinRows_hall db h r hr]
    exact decide_eq_true hs
  · rw [if_neg hs]
    apply List.filter_eq_nil_iff.mpr
    intro r hr
    rw [rowWhere_priceFilters, hallJoinRows_hall db h r hr]
    simp only [decide_eq_true_eq]
    exact hs

/-- Collapsing the join rows back to rate rows: the non-NULL rate column of
a hall's join rows is exactly the rates of its active products. -/
theorem hallJoinRows_rateMap {β : Type} (db : Db) (h : Hall)
    (f : HallProductRate → β) :
    (hallJoinRows db h).filterMap (fun r => r.rate.map f) =
      (activeRatesOf db h).map f := by
  simp only [hallJoinRows, activeRatesOf]
  by_cases hp : db.hallProducts.filter (fun p => p.hallId = h.id ∧ p.isActive) = []
  · rw [if_pos hp, hp]
    rfl
  · rw [if_neg hp]
    clear hp
    generalize db.hallProducts.filter (fun p => p.hallId = h.id ∧ p.isActive) = prods
    induction prods with
    | nil => rfl
    | cons p ps ih =>
      rw [List.flatMap_cons, List.flatMap_cons, List.filterMap_append,
        List.map_append, ih]
      congr 1
      by_cases hrs : db.hallProductRates.filter (fun x => x.hallProductId = p.id) = []
      · rw [if_pos hrs, hrs]
        rfl
      · rw [if_neg hrs, List.filterMap_map]
        simp only [Function.comp_def, Option.map_some]
        exact List.filterMap_eq_map _ ▸ rfl

/-- Membership in the grouped (GROUP BY h.id) rows under price-only filters:
exactly the ACTIVE halls, with aggregates over their active products. -/
theorem mem_groupedRows_price {db : Db} {pmin pmax L : Int} {g : GroupedRow} :
    g ∈ groupedRows db (priceFilters pmin pmax L) ↔
      ∃ h, h ∈ db.halls ∧ h.status = HallStatus.ACTIVE ∧
        g = { hall := h, minPrice := minActivePrice db h
              minCurrency := listMinJStr
                ((activeRatesOf db h).map (fun r => r.currency)) } := by
  simp only [groupedRows, List.mem_filter, List.mem_map, decide_eq_true_eq]
  constructor
  · rintro ⟨⟨h, hmem, rfl⟩, hne⟩
    have hne2 : (hallJoinRows db h).filter
        (rowWhere db (priceFilters pmin pmax L)) ≠ [] := hne
    rw [filter_rowWhere_priceFilters] at hne2
    by_cases hs : h.status = HallStatus.ACTIVE
    · refine ⟨h, hmem, hs, ?_⟩
      simp only [GroupedRow.mk.injEq]
      refine ⟨trivial, ?_, ?_⟩
      · rw [filter_rowWhere_priceFilters, if_pos hs, hallJoinRows_rateMap]
        rfl
      · rw [filter_rowWhere_priceFilters, if_pos hs, hallJoinRows_rateMap]
    · rw [if_neg hs] at hne2
      exact absurd rfl hne2
  · rintro ⟨h, hmem, hs, rfl⟩
    refine ⟨⟨h, hmem, ?_⟩, ?_⟩
    · simp only [GroupedRow.mk.injEq]
      refine ⟨trivial, ?_, ?_⟩
      · rw [filter_rowWhere_priceFilters, if_pos hs, hallJoinRows_rateMap]
        rfl
      · rw [filter_rowWhere_priceFilters, if_pos hs, hallJoinRows_rateMap]
    · show (hallJoinRows db h).filter (rowWhere db (priceFilters pmin pmax L)) ≠ []
      rw [filter_rowWhere_priceFilters, if_pos hs]
      exact hallJoinRows_ne_nil db h

/-- The HAVING clause of a price-range query passes exactly the groups whose
aggregated minimum exists and lies in the range. -/
theorem havingPass_price (pmin pmax L : Int) (mp : Option Int) :
    havingPass (priceFilters pmin pmax L) mp = true ↔
      ∃ m, mp = some m ∧ pmin ≤ m ∧ m ≤ pmax := by
  cases mp <;> simp [havingPass, priceFilters]

/-- `ORDER BY min_price ASC NULLS LAST` is total on grouped rows. -/
theorem priceAsc_total (a b : GroupedRow) :
    publicSortRel HallSortBy.price_asc a b = true ∨
      publicSortRel HallSortBy.price_asc b a = true := by
  simp only [publicSortRel]
  cases a.minPrice with
  | none => cases b.minPrice <;> simp [optIntAscNL]
  | some x =>
    cases b.minPrice with
    | none => simp [optIntAscNL]
    | some y =>
      simp only [optIntAscNL, decide_eq_true_eq]
      exact Int.le_total x y

/-- `ORDER BY min_price ASC NULLS LAST` is transitive on grouped rows. -/
theorem priceAsc_trans (a b c : GroupedRow) :
    publicSortRel HallSortBy.price_asc a b = true →
      publicSortRel HallSortBy.price_asc b c = true →
      publicSortRel HallSortBy.price_asc a c = true := by
  simp only [publicSortRel]
  cases a.minPrice <;> cases b.minPrice <;> cases c.minPrice <;>
    simp [optIntAscNL] <;> omega

end Zalna

namespace Zalna

/-- C4: a `getPublicHallList` call with `priceMin`, `priceMax` and
`sortBy = price_asc` (and a limit covering the table) returns exactly the
ACTIVE halls whose minimum price over the rates of their active products lies
in the range — halls with no such rate are dropped by the HAVING clause — as
cards carrying that minimum, ordered ascending by it with NULLS last. -/
theorem getPublicHallList_price_range (db : Db) (pmin pmax L : Int)
    (hL : (db.halls.length : Int) ≤ L)
    (hnodup : (db.halls.map (fun h => h.id)).Nodup) :
    (∀ h ∈ db.halls,
      (h.id ∈ (getPublicHallList db (priceFilters pmin pmax L)).data.map
          (fun c => c.id) ↔
        h.status = HallStatus.ACTIVE ∧
          ∃ m, minActivePrice db h = some m ∧ pmin ≤ m ∧ m ≤ pmax)) ∧
    (∀ c ∈ (getPublicHallList db (priceFilters pmin pmax L)).data,
      (∃ h, h ∈ db.halls ∧ c.id = h.id ∧
        c.startingFromPrice = minActivePrice db h) ∧
      ∃ m, c.startingFromPrice = some m ∧ pmin ≤ m ∧ m ≤ pmax) ∧
    ((getPublicHallList db (priceFilters pmin pmax L)).data.Pairwise
      (fun a b => optIntAscNL a.startingFromPrice b.startingFromPrice = true)) := by
  have hlen1 : (groupedRows db (priceFilters pmin pmax L)).length ≤
      db.halls.length := by
    simp only [groupedRows]
    exact le_trans (List.length_filter_le _ _) (le_of_eq (List.length_map _ _))
  have hlen : (sortBy (publicSortRel HallSortBy.price_asc)
      ((groupedRows db (priceFilters pmin pmax L)).filter
        (fun g => havingPass (priceFilters pmin pmax L) g.minPrice))).length ≤
      L.toNat := by
    rw [(sortBy_perm _ _).length_eq]
    refine le_trans (le_trans (List.length_filter_le _ _) hlen1) ?_
    have h2 := Int.toNat_le_toNat hL
    rwa [Int.toNat_natCast] at h2
  have hdata : (getPublicHallList db (priceFilters pmin pmax L)).data =
      (sortBy (publicSortRel HallSortBy.price_asc)
        ((groupedRows db (priceFilters pmin pmax L)).filter
          (fun g => havingPass (priceFilters pmin pmax L) g.minPrice))).map
        (fun g =>
          { id := g.hall.id, name := g.hall.name, slug := g.hall.slug
            city := g.hall.city, capacity := g.hall.capacity
            isPremium := g.hall.isPremium
            heroImageUrl := (getPrimaryMediaForHall db g.hall.id
              (ofStr "HERO")).map (fun m => m.fileUrl)
            startingFromPrice := g.minPrice
            startingFromCurrency :=
              if g.minPrice.isSome then g.minCurrency else none
            : PublicHallCardDTO }) := by
    have hpage : (priceFilters pmin pmax L).page = none := rfl
    have hlimit : (priceFilters pmin pmax L).limit = some L := rfl
    have hsort : (priceFilters pmin pmax L).sortBy =
      some HallSortBy.price_asc := rfl
    simp only [getPublicHallList, hpage, hlimit, hsort, Option.getD_some,
      Option.getD_none, sub_self, zero_mul, Int.toNat_zero, List.drop_zero]
    rw [List.take_of_length_le hlen]
  refine ⟨?_, ?_, ?_⟩
  · intro h hmem
    constructor
    · intro hid
      rw [hdata] at hid
      rcases List.mem_map.mp hid with ⟨c, hc, hcid⟩
      rcases List.mem_map.mp hc with ⟨g, hg, rfl⟩
      have hAH := mem_sortBy.mp hg
      have hgr := (List.mem_filter.mp hAH).1
      have hpass := (List.mem_filter.mp hAH).2
      rcases mem_groupedRows_price.mp hgr with ⟨h2, hmem2, hs2, rfl⟩
      rcases (havingPass_price pmin pmax L _).mp hpass with ⟨m, hm, hm1, hm2b⟩
      have hideq : h2.id = h.id := hcid
      have heq : h2 = h := List.inj_on_of_nodup_map hnodup hmem2 hmem hideq
      subst heq
      have hm3 : minActivePrice db h2 = some m := hm
      exact ⟨hs2, m, hm3, hm1, hm2b⟩
    · rintro ⟨hs, m, hmp, hm1, hm2⟩
      rw [hdata]
      refine List.mem_map.mpr ⟨_, List.mem_map.mpr
        ⟨{ hall := h, minPrice := minActivePrice db h
           minCurrency := listMinJStr
             ((activeRatesOf db h).map (fun r => r.currency)) }, ?_, rfl⟩, rfl⟩
      refine mem_sortBy.mpr (List.mem_filter.mpr
        ⟨mem_groupedRows_price.mpr ⟨h, hmem, hs, rfl⟩, ?_⟩)
      exact (havingPass_price pmin pmax L _).mpr ⟨m, hmp, hm1, hm2⟩
  · intro c hc
    rw [hdata] at hc
    rcases List.mem_map.mp hc with ⟨g, hg, rfl⟩
    have hAH := mem_sortBy.mp hg
    have hgr := (List.mem_filter.mp hAH).1
    have hpass := (List.mem_filter.mp hAH).2
    rcases mem_groupedRows_price.mp hgr with ⟨h2, hmem2, hs2, rfl⟩
    rcases (havingPass_price pmin pmax L _).mp hpass with ⟨m, hm, hm1, hm2b⟩
    have hm3 : minActivePrice db h2 = some m := hm
    exact ⟨⟨h2, hmem2, rfl, rfl⟩, m, hm3, hm1, hm2b⟩
  · rw [hdata]
    refine List.Pairwise.map _ ?_
      (pairwise_sortBy priceAsc_total priceAsc_trans _)
    intro a b hab
    exact hab

end Zalna

namespace Zalna

/-- Concrete instance of the C4 theorem: the search database, price range
[100, 500], ascending. -/
theorem getPublicHallList_price_range_witness :
    ((dbSearch.halls.length : Int) ≤ 50) ∧
    ((dbSearch.halls.map (fun h => h.id)).Nodup) ∧
    ((∀ h ∈ dbSearch.halls,
      (h.id ∈ (getPublicHallList dbSearch (priceFilters 100 500 50)).data.map
          (fun c => c.id) ↔
        h.status = HallStatus.ACTIVE ∧
          ∃ m, minActivePrice dbSearch h = some m ∧ 100 ≤ m ∧ m ≤ 500)) ∧
    (∀ c ∈ (getPublicHallList dbSearch (priceFilters 100 500 50)).data,
      (∃ h, h ∈ dbSearch.halls ∧ c.id = h.id ∧
        c.startingFromPrice = minActivePrice dbSearch h) ∧
      ∃ m, c.startingFromPrice = some m ∧ 100 ≤ m ∧ m ≤ 500) ∧
    ((getPublicHallList dbSearch (priceFilters 100 500 50)).data.Pairwise
      (fun a b => optIntAscNL a.startingFromPrice b.startingFromPrice = true))) :=
  ⟨by decide, by decide,
    getPublicHallList_price_range dbSearch 100 500 50 (by decide) (by decide)⟩

end Zalna
